import Mathlib

/-!
Verification of the Temporal Partition Combination & Imputation Orchestrator
of the pm25ml repository, as a shallow embedding in Lean 4.

The embedding covers:
- the Combine Plan Builder (`pm25ml/combiners/archive/combine_planner.py`):
  discriminator-key resolution, exact-month matching and the
  copy-latest-available-before fallback heuristic;
- the Dataset Merge Engine (`pm25ml/combiners/recombiner/recombiner.py`):
  shared-column conflict detection, the left-to-right full-join fold,
  validation and the idempotent skip check;
- the Spatial Gap-Fill Orchestrator
  (`pm25ml/imputation/spatial/spatial_imputation_manager.py`): per-month
  row-preservation check, post-write validation and the skip check;
- the Regression Imputation Engine
  (`pm25ml/imputation/from_model/regression_model_predictor.py`): the CV
  quality gate and the cross-month rolling statistic.

Python data frames are modelled as lists of association-list rows, storage
as an association list from partition paths to frames, numbers as `ℚ`/`Nat`,
and raised exceptions as `Except` errors whose constructors record the
Python exception class that is raised (`ValueError` vs. dedicated error
classes), so that catch clauses can be modelled faithfully.
-/

namespace Pm25ml

/-! ## Strings: Python lexicographic comparison

Python compares `str` values lexicographically by code point; this is the
comparison used by `metadata[key] < value` and `max(..., key=...)` in
`_DatasetResultGroup.get_best_matching`. `String.<` in Lean does not reduce
well in the kernel, so we embed the same order as a boolean function on the
underlying character lists. -/

/-- Lexicographic strict order on char lists by code point, as Python
compares strings. -/
def charListLt : List Char → List Char → Bool
  | [], [] => false
  | [], _ :: _ => true
  | _ :: _, [] => false
  | c :: cs, d :: ds =>
    if c.toNat < d.toNat then true
    else if d.toNat < c.toNat then false
    else charListLt cs ds

/-- Python's `<` on strings. -/
def strLt (a b : String) : Bool := charListLt a.data b.data

theorem charListLt_trans {a b c : List Char} (hab : charListLt a b = true)
    (hbc : charListLt b c = true) : charListLt a c = true := by
  induction a generalizing b c with
  | nil =>
    cases c with
    | nil => cases b <;> simp_all [charListLt]
    | cons _ _ => simp [charListLt]
  | cons x xs ih =>
    cases b with
    | nil => simp [charListLt] at hab
    | cons y ys =>
      cases c with
      | nil => simp [charListLt] at hbc
      | cons z zs =>
        simp only [charListLt] at hab hbc ⊢
        split_ifs at hab hbc ⊢ with h1 h2 h3 h4 h5 h6 <;>
          first
            | rfl
            | omega
            | (exact ih hab hbc)

theorem strLt_trans {a b c : String} (hab : strLt a b = true)
    (hbc : strLt b c = true) : strLt a c = true :=
  charListLt_trans hab hbc

/-! ## Data model shared by the Combine Plan Builder

`HivePath`, `UploadResult`, `DataCompleteness`, and `MissingDataHeuristic`
live in repository modules that are not part of the provided sources
(`pm25ml/hive_path.py`, `pm25ml/collectors/collector.py`,
`pm25ml/collectors/export_pipeline.py`); they are modelled from the spec
(§3, §6, §9, glossary) as plain value objects. -/

/-- Modelled from the spec: completeness of an upstream partition is either
`COMPLETE` (contains rows) or `EMPTY` (expected-but-empty placeholder);
`pm25ml/collectors/collector.py` is not in the provided sources. -/
inductive DataCompleteness
  | complete
  | empty
deriving DecidableEq

/-- Modelled from the spec: data is available exactly for `COMPLETE`
partitions. -/
def DataCompleteness.data_available : DataCompleteness → Bool
  | .complete => true
  | .empty => false

/-- Modelled from the spec (§3, §9): the missing-data policy is a closed
tagged variant, `strict` or `copy-latest-available-before`;
`pm25ml/collectors/export_pipeline.py` is not in the provided sources. -/
inductive MissingDataHeuristic
  | strict
  | copyLatestAvailableBefore
deriving DecidableEq

/-- Modelled from the spec (§6): a partition reference is an ordered
key/value mapping (`k1=v1/k2=v2/...`); only its metadata lookup is needed
here. `pm25ml/hive_path.py` is not in the provided sources. -/
structure HivePath where
  metadata : List (String × String)
deriving DecidableEq

/-- Python `dict.get`: lookup of a metadata key, `none` when absent. -/
def HivePath.get (p : HivePath) (k : String) : Option String :=
  p.metadata.lookup k

/-- The parts of an `UploadResult` consumed by the Combine Plan Builder:
its pipeline configuration's hive path, completeness flag and missing-data
heuristic (`result.pipeline_config.hive_path`, `result.completeness`,
`result.pipeline_config.consumer_behaviour.missing_data_heuristic`). -/
structure UploadResult where
  hive_path : HivePath
  completeness : DataCompleteness
  missing_data_heuristic : MissingDataHeuristic
deriving DecidableEq

/-- Embeds `_DatasetResultGroup` from
`pm25ml/combiners/archive/combine_planner.py`: all results sharing one
dataset name. -/
structure DatasetResultGroup where
  dataset : String
  results : List UploadResult
deriving DecidableEq

/-- The discriminator key of a dataset group (`Literal["type", "month",
"year"]` in the source). -/
inductive DKey
  | type
  | month
  | year
deriving DecidableEq

/-- The string form of a discriminator key, as used to index metadata. -/
def DKey.asString : DKey → String
  | .type => "type"
  | .month => "month"
  | .year => "year"

/-- Errors raised during planning. Each constructor records which Python
exception the source raises: `cannotDetermineKey` and
`noMatchingPartition` are `ValueError`s with the messages built in
`dataset_key` / `get_best_matching`; `noExactMatch` is the `StopIteration`
from `next(...)`; `metadataKeyMissing` is the `KeyError` from
`metadata[key]`; `emptyFallback` is the `ValueError` `max()` raises on an
empty sequence. -/
inductive PlanErr
  | cannotDetermineKey
  | noExactMatch
  | metadataKeyMissing
  | emptyFallback
  | noMatchingPartition (dataset key value : String)
deriving DecidableEq

/-- Python truthiness of an optional string: `None` and the empty string
are falsy. -/
def truthy : Option String → Bool
  | none => false
  | some s => !(s == "")

/-- Embeds `_DatasetResultGroup.dataset_key`: `type` if every member has
metadata `type == "static"`; else `month` if every member's `month`
metadata value is truthy; else `year` likewise; else a `ValueError`. -/
def DatasetResultGroup.dataset_key (g : DatasetResultGroup) :
    Except PlanErr DKey :=
  if g.results.all (fun r => r.hive_path.get "type" == some "static") then
    .ok .type
  else if g.results.all (fun r => truthy (r.hive_path.get "month")) then
    .ok .month
  else if g.results.all (fun r => truthy (r.hive_path.get "year")) then
    .ok .year
  else
    .error .cannotDetermineKey

/-- A calendar month (`Arrow` month value in the source, of which only
year and month number are relevant). -/
structure YM where
  year : Nat
  month : Nat
deriving DecidableEq

/-- Zero-padding to two digits, as Arrow's `"MM"` format. -/
def pad2 (n : Nat) : String :=
  if n < 10 then "0" ++ toString n else toString n

/-- Zero-padding to four digits, as Arrow's `"YYYY"` format. -/
def pad4 (n : Nat) : String :=
  if n < 10 then "000" ++ toString n
  else if n < 100 then "00" ++ toString n
  else if n < 1000 then "0" ++ toString n
  else toString n

/-- Embeds `_month_format`: `month.format("YYYY-MM")`. -/
def monthFormat (m : YM) : String := pad4 m.year ++ "-" ++ pad2 m.month

/-- Embeds `_DatasetResultGroup.extract_value` once the discriminator key
is known: `"static"`, the `YYYY-MM` month id, or `str(month.year)`. -/
def extractValueOf (k : DKey) (m : YM) : String :=
  match k with
  | .type => "static"
  | .month => monthFormat m
  | .year => toString m.year

/-- Embeds the `earlier_available_paths` generator inside
`get_best_matching`: the hive paths of all results whose data is available
and whose discriminator value compares strictly below the target value.
An available result lacking the key raises `KeyError` (the generator is
consumed lazily by `max`, which evaluates `metadata[key]`). -/
def earlierAvailablePaths (key value : String) :
    List UploadResult → Except PlanErr (List HivePath)
  | [] => .ok []
  | r :: rs =>
    if r.completeness.data_available then
      match r.hive_path.get key with
      | none => .error .metadataKeyMissing
      | some v =>
        if strLt v value then
          (earlierAvailablePaths key value rs).map (fun ps => r.hive_path :: ps)
        else
          earlierAvailablePaths key value rs
    else
      earlierAvailablePaths key value rs

/-- The sort key used by `max(..., key=lambda result: result.metadata[key])`
(every candidate path carries the key by construction; a missing key is
read as the empty string, which the proofs never rely on). -/
def keyValOf (key : String) (p : HivePath) : String := (p.get key).getD ""

/-- Embeds Python's `max(paths, key=...)`: `ValueError` on an empty
sequence, else the first maximum under the sort key (later elements
replace the current best only when strictly greater). -/
def maxByKey (key : String) : List HivePath → Except PlanErr HivePath
  | [] => .error .emptyFallback
  | p :: ps =>
    .ok (ps.foldl
      (fun best q => if strLt (keyValOf key best) (keyValOf key q) then q else best)
      p)

/-- Embeds `_DatasetResultGroup.get_best_matching`: find the member whose
discriminator value matches the target month exactly; return its path when
complete; otherwise fall back per the member's missing-data heuristic. -/
def DatasetResultGroup.get_best_matching (g : DatasetResultGroup) (m : YM) :
    Except PlanErr HivePath :=
  match g.dataset_key with
  | .error e => .error e
  | .ok key =>
    let value := extractValueOf key m
    match g.results.find?
        (fun r => r.hive_path.get key.asString == some value) with
    | none => .error .noExactMatch
    | some actual =>
      if actual.completeness.data_available then
        .ok actual.hive_path
      else
        match actual.missing_data_heuristic with
        | .copyLatestAvailableBefore =>
          match earlierAvailablePaths key.asString value g.results with
          | .error e => .error e
          | .ok paths => maxByKey key.asString paths
        | .strict => .error (.noMatchingPartition g.dataset key.asString value)

/-! ## Calendar arithmetic

`CombinePlan.days_in_month` computes
`(self.month.ceil("month") - self.month.floor("month")).days + 1` and
`SpatialImputationManager._days_in_month` computes the day difference to
the next month's first day; both are Arrow calendar computations that
yield the Gregorian month length, embedded here in closed form. -/

/-- Gregorian leap-year rule. -/
def isLeapYear (y : Nat) : Bool :=
  (y % 4 == 0 && !(y % 100 == 0)) || y % 400 == 0

/-- The number of days of a calendar month. -/
def daysInMonth (m : YM) : Nat :=
  if m.month == 2 then (if isLeapYear m.year then 29 else 28)
  else if m.month == 4 || m.month == 6 || m.month == 9 || m.month == 11 then 30
  else 31

/-- Embeds the `CombinePlan` dataclass of
`pm25ml/combiners/archive/combine_planner.py`. -/
structure CombinePlan where
  month : YM
  paths : List HivePath
  expected_columns : List String

/-- Embeds the `CombinePlan.days_in_month` property. -/
def CombinePlan.days_in_month (p : CombinePlan) : Nat := daysInMonth p.month

/-- Embeds the `CombinePlan.expected_rows` property:
`VALID_COUNTRIES["india"] * self.days_in_month`. The constant
`VALID_COUNTRIES["india"]` (the country's fixed grid cell count, defined in
`pm25ml/collectors/validate_configuration.py`, not in the provided sources)
is passed as the parameter `indiaGridCells`. -/
def CombinePlan.expected_rows (indiaGridCells : Nat) (p : CombinePlan) : Nat :=
  indiaGridCells * p.days_in_month

/-! ## Properties of the fallback machinery -/

theorem charListLt_irrefl (l : List Char) : charListLt l l = false := by
  induction l with
  | nil => rfl
  | cons c cs ih => simp [charListLt, ih]

theorem charListLt_lt_of_lt_of_not_lt {a q c : List Char}
    (haq : charListLt a q = true) (hcq : charListLt c q = false) :
    charListLt a c = true := by
  induction a generalizing q c with
  | nil =>
    cases q with
    | nil => simp [charListLt] at haq
    | cons y ys =>
      cases c with
      | nil => simp [charListLt] at hcq
      | cons z zs => simp [charListLt]
  | cons x xs ih =>
    cases q with
    | nil => simp [charListLt] at haq
    | cons y ys =>
      cases c with
      | nil => simp [charListLt] at hcq
      | cons z zs =>
        simp only [charListLt] at haq hcq ⊢
        split_ifs at haq hcq ⊢ with h1 h2 h3 h4 h5 h6 <;>
          first
            | rfl
            | omega
            | (exact ih haq hcq)

theorem strLt_irrefl (s : String) : strLt s s = false := charListLt_irrefl s.data

theorem strLt_lt_of_lt_of_not_lt {a q c : String} (haq : strLt a q = true)
    (hcq : strLt c q = false) : strLt a c = true :=
  charListLt_lt_of_lt_of_not_lt haq hcq

/-- The candidate scan succeeds when every available member of the group
carries the discriminator key (no `KeyError`). -/
theorem earlierAvailablePaths_ok (key value : String) (rs : List UploadResult)
    (h : ∀ r ∈ rs, r.completeness.data_available = true →
      (r.hive_path.get key).isSome = true) :
    ∃ ps, earlierAvailablePaths key value rs = .ok ps := by
  induction rs with
  | nil => exact ⟨[], rfl⟩
  | cons r rs ih =>
    obtain ⟨ps, hps⟩ := ih fun q hq hav => h q (List.mem_cons_of_mem _ hq) hav
    by_cases hav : r.completeness.data_available = true
    · cases hg : r.hive_path.get key with
      | none =>
        have := h r (List.mem_cons_self _ _) hav
        simp [hg] at this
      | some v =>
        by_cases hlt : strLt v value = true
        · exact ⟨r.hive_path :: ps,
            by simp [earlierAvailablePaths, hav, hg, hlt, hps, Except.map]⟩
        · exact ⟨ps, by
            simp [earlierAvailablePaths, hav, hg, Bool.of_not_eq_true hlt, hps]⟩
    · exact ⟨ps, by
        simp [earlierAvailablePaths, Bool.of_not_eq_true hav, hps]⟩

/-- Characterization of the candidates produced by the fallback scan: the
hive paths of exactly the available group members whose discriminator value
is strictly below the target. -/
theorem mem_earlierAvailablePaths {key value : String} {rs : List UploadResult}
    {ps : List HivePath}
    (h : earlierAvailablePaths key value rs = .ok ps) (p : HivePath) :
    p ∈ ps ↔ ∃ r ∈ rs, r.hive_path = p ∧ r.completeness.data_available = true ∧
      ∃ v, p.get key = some v ∧ strLt v value = true := by
  induction rs generalizing ps with
  | nil =>
    simp only [earlierAvailablePaths, Except.ok.injEq] at h
    subst h
    simp
  | cons r rs ih =>
    by_cases hav : r.completeness.data_available = true
    · cases hg : r.hive_path.get key with
      | none => simp [earlierAvailablePaths, hav, hg] at h
      | some v =>
        by_cases hlt : strLt v value = true
        · simp only [earlierAvailablePaths, hav, hg, hlt, if_true] at h
          cases hrec : earlierAvailablePaths key value rs with
          | error e => rw [hrec] at h; simp [Except.map] at h
          | ok ps0 =>
            rw [hrec] at h
            simp only [Except.map, Except.ok.injEq] at h
            subst h
            constructor
            · intro hp
              rcases List.mem_cons.mp hp with hp | hp
              · subst hp
                exact ⟨r, List.mem_cons_self _ _, rfl, hav, v, hg, hlt⟩
              · obtain ⟨r2, hr2, hpath, hav2, v2, hv2, hlt2⟩ :=
                  (ih hrec).mp hp
                exact ⟨r2, List.mem_cons_of_mem _ hr2, hpath, hav2, v2, hv2, hlt2⟩
            · rintro ⟨r2, hr2, hpath, hav2, v2, hv2, hlt2⟩
              rcases List.mem_cons.mp hr2 with hr2 | hr2
              · subst hr2
                rw [← hpath]
                exact List.mem_cons_self _ _
              · exact List.mem_cons_of_mem _
                  ((ih hrec).mpr ⟨r2, hr2, hpath, hav2, v2, hv2, hlt2⟩)
        · simp only [earlierAvailablePaths, hav, hg] at h
          rw [Bool.of_not_eq_true hlt] at h
          simp only [Bool.false_eq_true, if_true, if_false] at h
          rw [ih h]
          constructor
          · rintro ⟨r2, hr2, hpath, rest⟩
            exact ⟨r2, List.mem_cons_of_mem _ hr2, hpath, rest⟩
          · rintro ⟨r2, hr2, hpath, hav2, v2, hv2, hlt2⟩
            rcases List.mem_cons.mp hr2 with hr2 | hr2
            · subst hr2
              rw [hpath] at hg
              rw [hg] at hv2
              cases hv2
              exact absurd hlt2 hlt
            · exact ⟨r2, hr2, hpath, hav2, v2, hv2, hlt2⟩
    · rw [show earlierAvailablePaths key value (r :: rs) =
          earlierAvailablePaths key value rs by
        simp [earlierAvailablePaths, Bool.of_not_eq_true hav]] at h
      rw [ih h]
      constructor
      · rintro ⟨r2, hr2, hpath, rest⟩
        exact ⟨r2, List.mem_cons_of_mem _ hr2, hpath, rest⟩
      · rintro ⟨r2, hr2, hpath, hav2, rest⟩
        rcases List.mem_cons.mp hr2 with hr2 | hr2
        · subst hr2
          rw [hav2] at hav
          exact absurd rfl hav
        · exact ⟨r2, hr2, hpath, hav2, rest⟩

instance exceptDecidableEq {ε α : Type _} [DecidableEq ε] [DecidableEq α] :
    DecidableEq (Except ε α) := fun x y =>
  match x, y with
  | .ok a, .ok b =>
    if h : a = b then .isTrue (by rw [h]) else .isFalse (by simp [h])
  | .error e, .error f =>
    if h : e = f then .isTrue (by rw [h]) else .isFalse (by simp [h])
  | .ok _, .error _ => .isFalse (by simp)
  | .error _, .ok _ => .isFalse (by simp)

/-- Python's `max` over a non-empty list returns an element that no other
element strictly exceeds under the sort key. -/
theorem maxByKey_spec (key : String) (p : HivePath) (ps : List HivePath) :
    ∃ b, maxByKey key (p :: ps) = .ok b ∧ b ∈ p :: ps ∧
      ∀ q ∈ p :: ps, strLt (keyValOf key b) (keyValOf key q) = false := by
  suffices h : ∀ (init : HivePath) (l : List HivePath),
      ∃ b, l.foldl
          (fun best q =>
            if strLt (keyValOf key best) (keyValOf key q) then q else best)
          init = b ∧
        (b = init ∨ b ∈ l) ∧
        strLt (keyValOf key b) (keyValOf key init) = false ∧
        ∀ q ∈ l, strLt (keyValOf key b) (keyValOf key q) = false by
    obtain ⟨b, hfold, hmem, hinit, hall⟩ := h p ps
    refine ⟨b, ?_, ?_, ?_⟩
    · simp [maxByKey, hfold]
    · rcases hmem with h | h
      · subst h; exact List.mem_cons_self _ _
      · exact List.mem_cons_of_mem _ h
    · intro q hq
      rcases List.mem_cons.mp hq with hq | hq
      · subst hq; exact hinit
      · exact hall q hq
  intro init l
  induction l generalizing init with
  | nil => exact ⟨init, rfl, Or.inl rfl, strLt_irrefl _, by simp⟩
  | cons q qs ih =>
    by_cases hlt : strLt (keyValOf key init) (keyValOf key q) = true
    · obtain ⟨b, hfold, hmem, hinit, hall⟩ := ih q
      refine ⟨b, by simp [List.foldl_cons, hlt, hfold], ?_, ?_, ?_⟩
      · rcases hmem with h | h
        · exact Or.inr (h ▸ List.mem_cons_self _ _)
        · exact Or.inr (List.mem_cons_of_mem _ h)
      · cases hbi : strLt (keyValOf key b) (keyValOf key init) with
        | false => rfl
        | true => rw [strLt_trans hbi hlt] at hinit; cases hinit
      · intro r hr
        rcases List.mem_cons.mp hr with hr | hr
        · subst hr; exact hinit
        · exact hall r hr
    · obtain ⟨b, hfold, hmem, hinit, hall⟩ := ih init
      refine ⟨b, by simp [List.foldl_cons, Bool.of_not_eq_true hlt, hfold],
        ?_, hinit, ?_⟩
      · rcases hmem with h | h
        · exact Or.inl h
        · exact Or.inr (List.mem_cons_of_mem _ h)
      · intro r hr
        rcases List.mem_cons.mp hr with hr | hr
        · subst hr
          cases hbq : strLt (keyValOf key b) (keyValOf key r) with
          | false => rfl
          | true =>
            have := strLt_lt_of_lt_of_not_lt hbq (Bool.of_not_eq_true hlt)
            rw [this] at hinit
            cases hinit
        · exact hall r hr

/-- C1: for a dataset group under the copy-latest-available-before policy,
when the exact-month member is `EMPTY`, `get_best_matching` returns the
path of the `COMPLETE` member whose discriminator value is maximal among
those strictly below the target value, and fails with an error when no
such member exists. -/
theorem c1_fallback_correct
    (g : DatasetResultGroup) (m : YM) (key : DKey) (actual : UploadResult)
    (hkey : g.dataset_key = .ok key)
    (hfind : g.results.find?
      (fun r => r.hive_path.get key.asString == some (extractValueOf key m)) =
      some actual)
    (hempty : actual.completeness = .empty)
    (hpol : actual.missing_data_heuristic = .copyLatestAvailableBefore)
    (hkeys : ∀ r ∈ g.results, r.completeness.data_available = true →
      (r.hive_path.get key.asString).isSome = true) :
    ((∀ r ∈ g.results, r.completeness.data_available = true →
        ∀ v, r.hive_path.get key.asString = some v →
          strLt v (extractValueOf key m) = false) →
      ∃ e, g.get_best_matching m = .error e)
    ∧ ((∃ r ∈ g.results, r.completeness.data_available = true ∧
        ∃ v, r.hive_path.get key.asString = some v ∧
          strLt v (extractValueOf key m) = true) →
      ∃ best ∈ g.results,
        g.get_best_matching m = .ok best.hive_path ∧
        best.completeness.data_available = true ∧
        ∃ bv, best.hive_path.get key.asString = some bv ∧
          strLt bv (extractValueOf key m) = true ∧
          ∀ r ∈ g.results, r.completeness.data_available = true →
            ∀ v, r.hive_path.get key.asString = some v →
              strLt v (extractValueOf key m) = true → strLt bv v = false) := by
  obtain ⟨ps, hps⟩ :=
    earlierAvailablePaths_ok key.asString (extractValueOf key m) g.results hkeys
  have hrun : g.get_best_matching m = maxByKey key.asString ps := by
    simp only [DatasetResultGroup.get_best_matching, hkey, hfind, hempty, hpol,
      DataCompleteness.data_available, Bool.false_eq_true, if_false, hps]
  constructor
  · intro hno
    have hempty' : ps = [] := by
      cases hpq : ps with
      | nil => rfl
      | cons p ps0 =>
        obtain ⟨r2, hr2, hpath, hav2, v2, hv2, hlt2⟩ :=
          (mem_earlierAvailablePaths hps p).mp (by rw [hpq]; exact List.mem_cons_self _ _)
        rw [hno r2 hr2 hav2 v2 (by rw [hpath]; exact hv2)] at hlt2
        cases hlt2
    rw [hempty'] at hrun
    exact ⟨.emptyFallback, hrun⟩
  · rintro ⟨r0, hr0, hav0, v0, hv0, hlt0⟩
    have hp0 : r0.hive_path ∈ ps :=
      (mem_earlierAvailablePaths hps r0.hive_path).mpr
        ⟨r0, hr0, rfl, hav0, v0, hv0, hlt0⟩
    cases hpq : ps with
    | nil => rw [hpq] at hp0; cases hp0
    | cons p ps0 =>
      rw [hpq] at hrun hp0
      obtain ⟨b, hmax, hbmem, hbmaxi⟩ := maxByKey_spec key.asString p ps0
      obtain ⟨rb, hrb, hbpath, havb, vb, hvb, hltb⟩ :=
        (mem_earlierAvailablePaths hps b).mp (by rw [hpq]; exact hbmem)
      refine ⟨rb, hrb, ?_, havb, vb, by rw [hbpath]; exact hvb,
        hltb, ?_⟩
      · rw [hrun, hmax, hbpath]
      · intro r hr hav v hv hlt
        have hrp : r.hive_path ∈ p :: ps0 := by
          rw [← hpq]
          exact (mem_earlierAvailablePaths hps r.hive_path).mpr
            ⟨r, hr, rfl, hav, v, hv, hlt⟩
        have := hbmaxi r.hive_path hrp
        rw [keyValOf, keyValOf, hvb, hv] at this
        simpa using this

/-- Concrete group exercising `c1_fallback_correct`: a yearly dataset whose
2022 and 2023 partitions are empty with the copy-latest policy and whose
2021 partition is complete. -/
def c1Group : DatasetResultGroup :=
  { dataset := "yearly_dataset"
    results :=
      [ { hive_path := ⟨[("dataset", "yearly_dataset"), ("year", "2021")]⟩
          completeness := .complete
          missing_data_heuristic := .strict }
      , { hive_path := ⟨[("dataset", "yearly_dataset"), ("year", "2022")]⟩
          completeness := .empty
          missing_data_heuristic := .copyLatestAvailableBefore }
      , { hive_path := ⟨[("dataset", "yearly_dataset"), ("year", "2023")]⟩
          completeness := .empty
          missing_data_heuristic := .copyLatestAvailableBefore } ] }

/-- The exact-match member of `c1Group` for 2023. -/
def c1Actual : UploadResult :=
  { hive_path := ⟨[("dataset", "yearly_dataset"), ("year", "2023")]⟩
    completeness := .empty
    missing_data_heuristic := .copyLatestAvailableBefore }

/-- Witness for `c1_fallback_correct` at the concrete group `c1Group` and
month 2023-01: the fallback picks the complete 2021 partition. -/
theorem c1_fallback_correct_witness :
    ∃ best ∈ c1Group.results,
      c1Group.get_best_matching ⟨2023, 1⟩ = .ok best.hive_path ∧
      best.completeness.data_available = true ∧
      ∃ bv, best.hive_path.get "year" = some bv ∧
        strLt bv (extractValueOf .year ⟨2023, 1⟩) = true ∧
        ∀ r ∈ c1Group.results, r.completeness.data_available = true →
          ∀ v, r.hive_path.get "year" = some v →
            strLt v (extractValueOf .year ⟨2023, 1⟩) = true →
              strLt bv v = false :=
  (c1_fallback_correct c1Group ⟨2023, 1⟩ .year c1Actual (by decide)
      (by decide) (by decide) (by decide) (by decide)).2
    ⟨ { hive_path := ⟨[("dataset", "yearly_dataset"), ("year", "2021")]⟩
        completeness := .complete
        missing_data_heuristic := .strict }
    , by decide, by decide, "2021", by decide, by decide⟩

/-- C8 counterexample: a group whose single member has a `month` metadata
key bound to the empty string (and no `"type" == "static"`); the claim
says the discriminator key resolves to `month`, but `dataset_key` uses
Python truthiness, treats the empty value as absent, and fails. -/
def c8Group : DatasetResultGroup :=
  { dataset := "d"
    results :=
      [ { hive_path := ⟨[("dataset", "d"), ("month", "")]⟩
          completeness := .complete
          missing_data_heuristic := .strict } ] }

/-- C8 counterexample: every member of `c8Group` has a `month` metadata
key and the `type == "static"` condition fails, yet `dataset_key` raises a
`ValueError` instead of resolving to `month`. -/
theorem c8_dataset_key_counterexample :
    (∀ r ∈ c8Group.results, (r.hive_path.get "month").isSome = true)
    ∧ ¬ (∀ r ∈ c8Group.results, r.hive_path.get "type" = some "static")
    ∧ c8Group.dataset_key = .error .cannotDetermineKey := by
  refine ⟨by decide, ?_, by decide⟩
  intro h
  have := h
    { hive_path := ⟨[("dataset", "d"), ("month", "")]⟩
      completeness := .complete
      missing_data_heuristic := .strict }
    (List.mem_cons_self _ _)
  exact absurd this (by decide)

/-- C8 as amended: the discriminator key resolves to `type` if every
member has `type == "static"`; otherwise to `month` if every member has a
`month` key with a non-empty value; otherwise to `year` likewise; and
fails with an error when none of the three conditions holds. -/
theorem c8_dataset_key_resolution (g : DatasetResultGroup) :
    ((∀ r ∈ g.results, r.hive_path.get "type" = some "static") →
      g.dataset_key = .ok .type)
    ∧ (¬ (∀ r ∈ g.results, r.hive_path.get "type" = some "static") →
      (∀ r ∈ g.results, (r.hive_path.get "month").isSome = true ∧
        r.hive_path.get "month" ≠ some "") →
      g.dataset_key = .ok .month)
    ∧ (¬ (∀ r ∈ g.results, r.hive_path.get "type" = some "static") →
      ¬ (∀ r ∈ g.results, (r.hive_path.get "month").isSome = true ∧
        r.hive_path.get "month" ≠ some "") →
      (∀ r ∈ g.results, (r.hive_path.get "year").isSome = true ∧
        r.hive_path.get "year" ≠ some "") →
      g.dataset_key = .ok .year)
    ∧ (¬ (∀ r ∈ g.results, r.hive_path.get "type" = some "static") →
      ¬ (∀ r ∈ g.results, (r.hive_path.get "month").isSome = true ∧
        r.hive_path.get "month" ≠ some "") →
      ¬ (∀ r ∈ g.results, (r.hive_path.get "year").isSome = true ∧
        r.hive_path.get "year" ≠ some "") →
      g.dataset_key = .error .cannotDetermineKey) := by
  have htruthy : ∀ o : Option String,
      truthy o = true ↔ (o.isSome = true ∧ o ≠ some "") := by
    intro o
    cases o with
    | none => simp [truthy]
    | some s => simp [truthy]
  have htype : (g.results.all
        (fun r => r.hive_path.get "type" == some "static") = true) ↔
      (∀ r ∈ g.results, r.hive_path.get "type" = some "static") := by
    simp [List.all_eq_true]
  have hmonth : (g.results.all
        (fun r => truthy (r.hive_path.get "month")) = true) ↔
      (∀ r ∈ g.results, (r.hive_path.get "month").isSome = true ∧
        r.hive_path.get "month" ≠ some "") := by
    simp only [List.all_eq_true]
    exact forall₂_congr fun r _ => htruthy _
  have hyear : (g.results.all
        (fun r => truthy (r.hive_path.get "year")) = true) ↔
      (∀ r ∈ g.results, (r.hive_path.get "year").isSome = true ∧
        r.hive_path.get "year" ≠ some "") := by
    simp only [List.all_eq_true]
    exact forall₂_congr fun r _ => htruthy _
  refine ⟨?_, ?_, ?_, ?_⟩
  · intro h1
    rw [DatasetResultGroup.dataset_key, if_pos (htype.mpr h1)]
  · intro h1 h2
    rw [DatasetResultGroup.dataset_key, if_neg (fun hc => h1 (htype.mp hc)),
      if_pos (hmonth.mpr h2)]
  · intro h1 h2 h3
    rw [DatasetResultGroup.dataset_key, if_neg (fun hc => h1 (htype.mp hc)),
      if_neg (fun hc => h2 (hmonth.mp hc)), if_pos (hyear.mpr h3)]
  · intro h1 h2 h3
    rw [DatasetResultGroup.dataset_key, if_neg (fun hc => h1 (htype.mp hc)),
      if_neg (fun hc => h2 (hmonth.mp hc)), if_neg (fun hc => h3 (hyear.mp hc))]

/-- Static-typed group used in the `c8` witness. -/
def c8StaticGroup : DatasetResultGroup :=
  { dataset := "s"
    results :=
      [ { hive_path := ⟨[("dataset", "s"), ("type", "static")]⟩
          completeness := .complete
          missing_data_heuristic := .strict } ] }

/-- Month-keyed group used in the `c8` witness. -/
def c8MonthGroup : DatasetResultGroup :=
  { dataset := "m"
    results :=
      [ { hive_path := ⟨[("dataset", "m"), ("month", "2023-01")]⟩
          completeness := .complete
          missing_data_heuristic := .strict } ] }

/-- Year-keyed group used in the `c8` witness. -/
def c8YearGroup : DatasetResultGroup :=
  { dataset := "y"
    results :=
      [ { hive_path := ⟨[("dataset", "y"), ("year", "2023")]⟩
          completeness := .complete
          missing_data_heuristic := .strict } ] }

/-- Ambiguous group used in the `c8` witness. -/
def c8BadGroup : DatasetResultGroup :=
  { dataset := "b"
    results :=
      [ { hive_path := ⟨[("dataset", "b")]⟩
          completeness := .complete
          missing_data_heuristic := .strict } ] }

/-- Witness for `c8_dataset_key_resolution` on four concrete groups, one
per branch. -/
theorem c8_dataset_key_resolution_witness :
    c8StaticGroup.dataset_key = .ok .type
    ∧ c8MonthGroup.dataset_key = .ok .month
    ∧ c8YearGroup.dataset_key = .ok .year
    ∧ c8BadGroup.dataset_key = .error .cannotDetermineKey :=
  ⟨ (c8_dataset_key_resolution c8StaticGroup).1 (by decide)
  , (c8_dataset_key_resolution c8MonthGroup).2.1 (by decide) (by decide)
  , (c8_dataset_key_resolution c8YearGroup).2.2.1 (by decide) (by decide)
      (by decide)
  , (c8_dataset_key_resolution c8BadGroup).2.2.2 (by decide) (by decide)
      (by decide)⟩

/-! ## Dataset Merge Engine (`Recombiner`)

`pm25ml/combiners/recombiner/recombiner.py`. Polars data frames are
modelled as a list of column names plus a list of association-list rows
(a missing key in a row is a null cell); `CombinedStorage`
(`pm25ml/combiners/combined_storage.py`, not in the provided sources) is
modelled from the spec's Storage Gateway contract (§6) as an association
list from `(stage, month)` partition paths to frames, where a write
prepends and a read returns the most recent write. The thread pools of
`_filter_months_to_update`, `_process_in_parallel` and `_validate_all` are
modelled sequentially in month order: the per-month tasks read and write
disjoint partition paths and `executor.map` preserves order and surfaces
the first exception in iteration order. -/

/-- Cell values of a data frame (opaque to the merge logic). -/
abbrev Val := Int

/-- One data-frame row: an association list from column name to cell
value; an absent column is a null cell. -/
abbrev Row := List (String × Val)

/-- A polars `DataFrame`: column names plus rows. -/
structure Frame where
  cols : List String
  rows : List Row
deriving DecidableEq

/-- Cell access in a row. -/
def rowGet (r : Row) (c : String) : Option Val := r.lookup c

/-- The identifier columns of the merge: `{"grid_id", "date"}`. -/
def idColumns : List String := ["grid_id", "date"]

/-- Embeds `(set(combined_df.columns) & set(df.columns)) - id_columns`. -/
def sharedNonIdColumns (acc df : Frame) : List String :=
  acc.cols.filter (fun c => df.cols.contains c && !(idColumns.contains c))

/-- Embeds `DataFrame.drop`: remove the given columns. -/
def dropColumns (f : Frame) (cs : List String) : Frame :=
  { cols := f.cols.filter (fun c => !(cs.contains c))
    rows := f.rows.map (fun r => r.filter (fun kv => !(cs.contains kv.1))) }

/-- Embeds `set(combined_df.columns) & set(df.columns) & id_columns`. -/
def sharedIdColumns (acc df : Frame) : List String :=
  acc.cols.filter (fun c => df.cols.contains c && idColumns.contains c)

/-- Whether two rows agree on every join-key column. -/
def keysMatch (keys : List String) (a b : Row) : Bool :=
  keys.all (fun k => rowGet a k == rowGet b k)

/-- A row restricted away from the join-key columns (the right side's key
columns are coalesced into the left side's). -/
def restrictAway (r : Row) (keys : List String) : Row :=
  r.filter (fun kv => !(keys.contains kv.1))

/-- The rows of a full (outer) join with `coalesce=True` on `keys`: each
left row paired with every key-matching right row (or kept alone with null
right cells when none matches), plus every right row with no left
match. -/
def joinedRows (l r : Frame) (keys : List String) : List Row :=
  (l.rows.map (fun lr =>
    let ms := r.rows.filter (fun rr => keysMatch keys lr rr)
    if ms.isEmpty then [lr] else ms.map (fun rr => lr ++ restrictAway rr keys))).flatten
  ++ r.rows.filter (fun rr => l.rows.all (fun lr => !(keysMatch keys lr rr)))

/-- Embeds `combined_df.join(df, on=keys, how="full", coalesce=True)`. -/
def joinFull (l r : Frame) (keys : List String) : Frame :=
  { cols := l.cols ++ r.cols.filter (fun c => !(keys.contains c))
    rows := joinedRows l r keys }

/-- The `ValueError`s raised by the Dataset Merge Engine, carrying the
data interpolated into the Python message. -/
inductive MergeValueError
  | sharedColumns (cols : List String)
  | rowMismatch (expected actual : Nat)
  | missingColumns (missing : List String)
deriving DecidableEq

/-- All errors of the Dataset Merge Engine. Only `valueError` is a Python
`ValueError` (the class `_needs_recombining` catches); `storageMissing` is
the storage gateway's error for a read of an absent partition,
`indexOutOfRange` is the `IndexError` of `stage_dfs[0]` on no stages, and
`stopIteration` arises from `next(iter(stages))` on no stages. -/
inductive RErr
  | valueError (e : MergeValueError)
  | storageMissing (stage month : String)
  | indexOutOfRange
  | stopIteration
deriving DecidableEq

/-- One step of the `_combine_all` fold: detect shared non-identifier
columns, then error, or drop them from the accumulator, before the full
join on the shared identifier columns. -/
def combineTwo (overwrite : Bool) (acc df : Frame) : Except MergeValueError Frame :=
  let shared := sharedNonIdColumns acc df
  if shared.isEmpty then
    .ok (joinFull acc df (sharedIdColumns acc df))
  else if overwrite then
    let acc2 := dropColumns acc shared
    .ok (joinFull acc2 df (sharedIdColumns acc2 df))
  else
    .error (.sharedColumns shared)

/-- The tail of the `_combine_all` fold. -/
def combineFold (overwrite : Bool) (acc : Frame) : List Frame → Except RErr Frame
  | [] => .ok acc
  | df :: dfs =>
    match combineTwo overwrite acc df with
    | .error e => .error (.valueError e)
    | .ok acc2 => combineFold overwrite acc2 dfs

/-- Embeds `Recombiner._combine_all`: left-to-right fold over the stage
frames starting from `stage_dfs[0]`. -/
def combineAll (overwrite : Bool) : List Frame → Except RErr Frame
  | [] => .error .indexOutOfRange
  | f :: rest => combineFold overwrite f rest

/-- A partition path: `(stage name, YYYY-MM month id)`, standing for the
hive path `stage=<stage>/month=<month>` used by `DataArtifactRef.for_month`. -/
abbrev PartitionPath := String × String

/-- Modelled from the spec (§6 Storage Gateway): the partitioned store, an
association list where a write prepends and a read finds the most recent
write; `pm25ml/combiners/combined_storage.py` is not in the provided
sources. -/
abbrev Storage := List (PartitionPath × Frame)

/-- Storage Gateway `read_dataframe` (`none` when the partition does not
exist). -/
def storageRead (st : Storage) (p : PartitionPath) : Option Frame :=
  st.lookup p

/-- Storage Gateway `write_to_destination`. -/
def storageWrite (st : Storage) (p : PartitionPath) (f : Frame) : Storage :=
  (p, f) :: st

/-- Storage Gateway `does_dataset_exist`. -/
def doesDatasetExist (st : Storage) (p : PartitionPath) : Bool :=
  (storageRead st p).isSome

/-- Lightweight dataframe metadata: `num_rows` and `schema.names`. -/
structure FrameMeta where
  num_rows : Nat
  colNames : List String
deriving DecidableEq

/-- Storage Gateway `read_dataframe_metadata`: errors (with a non-
`ValueError` storage error) when the partition does not exist. -/
def readMetadata (st : Storage) (p : PartitionPath) : Except RErr FrameMeta :=
  match storageRead st p with
  | none => .error (.storageMissing p.1 p.2)
  | some f => .ok ⟨f.rows.length, f.cols⟩

/-- The configuration of a `Recombiner` together with the arguments of
`recombine` (stages to merge, in order). -/
structure RecombinerCfg where
  stages : List String
  outStage : String
  months : List String
  forceRecombine : Bool
  overwriteColumns : Bool

/-- Union of two column lists with set semantics (Python `set.update`). -/
def listUnion (a b : List String) : List String :=
  a ++ b.filter (fun c => !(a.contains c))

/-- Embeds the expected-columns loop of `_validate_combined`: union of
the column names read from each stage's metadata for the month. -/
def collectExpectedColumns (st : Storage) (m : String) :
    List String → Except RErr (List String)
  | [] => .ok []
  | s :: rest =>
    match readMetadata st (s, m) with
    | .error e => .error e
    | .ok meta =>
      match collectExpectedColumns st m rest with
      | .error e => .error e
      | .ok cols => .ok (listUnion meta.colNames cols)

/-- Embeds `Recombiner._validate_combined`: the output partition's
metadata must have exactly the first stage's row count and at least the
union of the stages' columns; violations raise `ValueError`s. -/
def validateCombined (st : Storage) (stages : List String) (outStage m : String) :
    Except RErr Unit :=
  match collectExpectedColumns st m stages with
  | .error e => .error e
  | .ok expectedColumns =>
    match stages with
    | [] => .error .stopIteration
    | firstStage :: _ =>
      match readMetadata st (firstStage, m) with
      | .error e => .error e
      | .ok firstMeta =>
        match readMetadata st (outStage, m) with
        | .error e => .error e
        | .ok outMeta =>
          if outMeta.num_rows ≠ firstMeta.num_rows then
            .error (.valueError (.rowMismatch firstMeta.num_rows outMeta.num_rows))
          else
            let missing := expectedColumns.filter
              (fun c => !(outMeta.colNames.contains c))
            if missing.isEmpty then .ok ()
            else .error (.valueError (.missingColumns missing))

/-- Embeds `Recombiner._needs_recombining`: a month needs recombination
when its output partition does not exist or re-validation raises a
`ValueError` (caught locally); other exceptions propagate. -/
def needsRecombining (st : Storage) (stages : List String) (outStage m : String) :
    Except RErr Bool :=
  if !(doesDatasetExist st (outStage, m)) then .ok true
  else
    match validateCombined st stages outStage m with
    | .ok () => .ok false
    | .error (.valueError _) => .ok true
    | .error e => .error e

/-- The skip-check pass over all months (the read-only
`executor.map(lambda month: (month, self._needs_recombining(...)))`). -/
def checkMonths (st : Storage) (stages : List String) (outStage : String) :
    List String → Except RErr (List (String × Bool))
  | [] => .ok []
  | m :: ms =>
    match needsRecombining st stages outStage m with
    | .error e => .error e
    | .ok b =>
      match checkMonths st stages outStage ms with
      | .error e => .error e
      | .ok rest => .ok ((m, b) :: rest)

/-- Embeds `Recombiner._filter_months_to_update`. -/
def filterMonthsToUpdate (cfg : RecombinerCfg) (st : Storage) :
    Except RErr (List String) :=
  if cfg.forceRecombine then .ok cfg.months
  else
    match checkMonths st cfg.stages cfg.outStage cfg.months with
    | .error e => .error e
    | .ok pairs => .ok ((pairs.filter (fun p => p.2)).map (fun p => p.1))

/-- Embeds `Recombiner._read_dfs_to_merge`. -/
def readDfsToMerge (st : Storage) (m : String) :
    List String → Except RErr (List Frame)
  | [] => .ok []
  | s :: rest =>
    match storageRead st (s, m) with
    | none => .error (.storageMissing s m)
    | some f =>
      match readDfsToMerge st m rest with
      | .error e => .error e
      | .ok fs => .ok (f :: fs)

/-- Embeds the per-month body of `_process_in_parallel`: read the stage
frames, combine them, and write the result to the output partition. -/
def processMonth (cfg : RecombinerCfg) (st : Storage) (m : String) :
    Except RErr Storage :=
  match readDfsToMerge st m cfg.stages with
  | .error e => .error e
  | .ok stageDfs =>
    match combineAll cfg.overwriteColumns stageDfs with
    | .error e => .error e
    | .ok combined => .ok (storageWrite st (cfg.outStage, m) combined)

/-- The write pass over the filtered months. -/
def processAllMonths (cfg : RecombinerCfg) (st : Storage) :
    List String → Except RErr Storage
  | [] => .ok st
  | m :: ms =>
    match processMonth cfg st m with
    | .error e => .error e
    | .ok st2 => processAllMonths cfg st2 ms

/-- Embeds `Recombiner._validate_all` over the filtered months. -/
def validateAllMonths (st : Storage) (stages : List String) (outStage : String) :
    List String → Except RErr Unit
  | [] => .ok ()
  | m :: ms =>
    match validateCombined st stages outStage m with
    | .error e => .error e
    | .ok () => validateAllMonths st stages outStage ms

/-- Embeds `Recombiner.recombine`: skip-check, write pass, validation
pass. Returns the final storage and the months that were (re)written. -/
def recombine (cfg : RecombinerCfg) (st : Storage) :
    Except RErr (Storage × List String) :=
  match filterMonthsToUpdate cfg st with
  | .error e => .error e
  | .ok filteredMonths =>
    match processAllMonths cfg st filteredMonths with
    | .error e => .error e
    | .ok st2 =>
      match validateAllMonths st2 cfg.stages cfg.outStage filteredMonths with
      | .error e => .error e
      | .ok () => .ok (st2, filteredMonths)

/-! ## Conflict detection and overwrite semantics (C3) -/

theorem rowGet_append_of_none {l1 l2 : Row} {c : String}
    (h : rowGet l1 c = none) : rowGet (l1 ++ l2) c = rowGet l2 c := by
  induction l1 with
  | nil => rfl
  | cons kv rest ih =>
    obtain ⟨k, v⟩ := kv
    simp only [rowGet, List.lookup, List.cons_append] at h ⊢
    cases hck : c == k with
    | true =>
      simp only [hck] at h
      exact Option.noConfusion h
    | false =>
      simp only [hck] at h ⊢
      exact ih h

theorem rowGet_filter_of_key_kept {p : String × Val → Bool} {r : Row}
    {c : String} (hkeep : ∀ kv : String × Val, kv.1 = c → p kv = true) :
    rowGet (r.filter p) c = rowGet r c := by
  induction r with
  | nil => rfl
  | cons kv rest ih =>
    obtain ⟨k, v⟩ := kv
    by_cases hck : c = k
    · subst hck
      rw [List.filter_cons, if_pos (hkeep (c, v) rfl)]
      simp only [rowGet, List.lookup, beq_self_eq_true]
    · have hbeq : (c == k) = false := by simp [hck]
      rw [List.filter_cons]
      by_cases hp : p (k, v) = true
      · rw [if_pos hp]
        simp only [rowGet, List.lookup, hbeq]
        exact ih
      · rw [if_neg hp]
        rw [ih]
        simp only [rowGet, List.lookup, hbeq]

theorem rowGet_filter_of_key_dropped {p : String × Val → Bool} {r : Row}
    {c : String} (hdrop : ∀ kv : String × Val, kv.1 = c → p kv = false) :
    rowGet (r.filter p) c = none := by
  induction r with
  | nil => rfl
  | cons kv rest ih =>
    obtain ⟨k, v⟩ := kv
    by_cases hck : c = k
    · subst hck
      rw [List.filter_cons, if_neg (by simp [hdrop (c, v) rfl])]
      exact ih
    · have hbeq : (c == k) = false := by simp [hck]
      rw [List.filter_cons]
      by_cases hp : p (k, v) = true
      · rw [if_pos hp]
        simp only [rowGet, List.lookup, hbeq]
        exact ih
      · rw [if_neg hp]
        exact ih

theorem rowGet_restrictAway_of_not_key {r : Row} {keys : List String}
    {c : String} (h : keys.contains c = false) :
    rowGet (restrictAway r keys) c = rowGet r c :=
  rowGet_filter_of_key_kept fun kv hkv => by
    rw [hkv, h]
    rfl

theorem rowGet_dropColumns_none {r : Row} {cs : List String} {c : String}
    (hc : cs.contains c = true) :
    rowGet (r.filter (fun kv => !(cs.contains kv.1))) c = none :=
  rowGet_filter_of_key_dropped fun kv hkv => by
    rw [hkv, hc]
    rfl

/-- A matched left/right row pair contributes its merged row to the rows
of the full join. -/
theorem mem_joinedRows_of_match {l r : Frame} {keys : List String}
    {lr rr : Row} (hl : lr ∈ l.rows) (hr : rr ∈ r.rows)
    (hm : keysMatch keys lr rr = true) :
    (lr ++ restrictAway rr keys) ∈ joinedRows l r keys := by
  apply List.mem_append_left
  apply List.mem_flatten.mpr
  have hms : rr ∈ r.rows.filter (fun rr => keysMatch keys lr rr) :=
    List.mem_filter.mpr ⟨hr, hm⟩
  have h4 : (r.rows.filter (fun rr => keysMatch keys lr rr)).isEmpty = false := by
    cases hfq : r.rows.filter (fun rr => keysMatch keys lr rr) with
    | nil => rw [hfq] at hms; cases hms
    | cons a as => rfl
  refine ⟨(fun lr =>
      let ms := r.rows.filter (fun rr => keysMatch keys lr rr)
      if ms.isEmpty then [lr]
      else ms.map (fun rr => lr ++ restrictAway rr keys)) lr,
    List.mem_map_of_mem _ hl, ?_⟩
  simp only [h4, Bool.false_eq_true, if_false]
  exact List.mem_map_of_mem _ hms

/-- The join keys used after an overwrite drop: the identifier columns
shared between the dropped accumulator and the next frame. -/
def overwriteKeys (acc df : Frame) : List String :=
  sharedIdColumns (dropColumns acc (sharedNonIdColumns acc df)) df

/-- The frame produced by one overwrite-mode fold step with shared
columns: the shared columns are dropped from the accumulator before the
full join. -/
def overwriteJoin (acc df : Frame) : Frame :=
  joinFull (dropColumns acc (sharedNonIdColumns acc df)) df (overwriteKeys acc df)

/-- C3: in a fold step of the Dataset Merge Engine where the accumulator
and the next frame share non-identifier columns, `overwrite_columns=false`
raises a `ValueError` carrying exactly those columns (they are what the
message interpolates), while `overwrite_columns=true` drops them from the
accumulator before the full join, so each merged row takes the shared
columns' values from the right-hand frame. -/
theorem c3_shared_column_conflict (acc df : Frame)
    (hne : sharedNonIdColumns acc df ≠ []) :
    (combineTwo false acc df = .error (.sharedColumns (sharedNonIdColumns acc df))
      ∧ ∀ c, c ∈ sharedNonIdColumns acc df ↔
          (c ∈ acc.cols ∧ c ∈ df.cols ∧ c ∉ idColumns))
    ∧ (combineTwo true acc df = .ok (overwriteJoin acc df)
      ∧ ∀ c ∈ sharedNonIdColumns acc df,
        ∀ lr ∈ (dropColumns acc (sharedNonIdColumns acc df)).rows,
          ∀ rr ∈ df.rows, keysMatch (overwriteKeys acc df) lr rr = true →
            (lr ++ restrictAway rr (overwriteKeys acc df)) ∈ (overwriteJoin acc df).rows
            ∧ rowGet (lr ++ restrictAway rr (overwriteKeys acc df)) c = rowGet rr c) := by
  have hchar : ∀ c, c ∈ sharedNonIdColumns acc df ↔
      (c ∈ acc.cols ∧ c ∈ df.cols ∧ c ∉ idColumns) := by
    intro c
    simp [sharedNonIdColumns, List.mem_filter]
  have hie : (sharedNonIdColumns acc df).isEmpty = false := by
    cases hq : sharedNonIdColumns acc df with
    | nil => exact absurd hq hne
    | cons a as => rfl
  refine ⟨⟨?_, hchar⟩, ?_, ?_⟩
  · simp [combineTwo, hie]
  · simp [combineTwo, hie, overwriteJoin, overwriteKeys]
  · intro c hc lr hlr rr hrr hmatch
    have hkeysId : ∀ k, k ∈ overwriteKeys acc df → k ∈ idColumns := by
      intro k hk
      have := List.mem_filter.mp hk
      have h2 := this.2
      simp only [Bool.and_eq_true] at h2
      exact List.mem_of_elem_eq_true h2.2
    have hcnotid : c ∉ idColumns := ((hchar c).mp hc).2.2
    have hcNotKeys : (overwriteKeys acc df).contains c = false := by
      cases hq : (overwriteKeys acc df).contains c with
      | false => rfl
      | true =>
        exact absurd (hkeysId c (List.mem_of_elem_eq_true hq)) hcnotid
    constructor
    · exact mem_joinedRows_of_match hlr hrr hmatch
    · have hlrnone : rowGet lr c = none := by
        obtain ⟨r0, _, hr0eq⟩ := List.mem_map.mp hlr
        rw [← hr0eq]
        exact rowGet_dropColumns_none (List.elem_eq_true_of_mem hc)
      rw [rowGet_append_of_none hlrnone]
      exact rowGet_restrictAway_of_not_key hcNotKeys

/-- Accumulator frame for the `c3` witness. -/
def c3Acc : Frame :=
  { cols := ["grid_id", "date", "v"]
    rows := [[("grid_id", 1), ("date", 5), ("v", 10)]] }

/-- Right-hand frame for the `c3` witness, sharing column `v`. -/
def c3Df : Frame :=
  { cols := ["grid_id", "date", "v"]
    rows := [[("grid_id", 1), ("date", 5), ("v", 2)]] }

/-- Witness for `c3_shared_column_conflict` at concrete single-row
frames sharing the non-identifier column `v`: without overwrite the
`ValueError` carries `["v"]`; with overwrite the merged row takes `v = 2`
from the right frame. -/
theorem c3_shared_column_conflict_witness :
    combineTwo false c3Acc c3Df = .error (.sharedColumns (sharedNonIdColumns c3Acc c3Df))
    ∧ combineTwo true c3Acc c3Df = .ok (overwriteJoin c3Acc c3Df)
    ∧ ([("grid_id", (1 : Val)), ("date", 5)] ++
        restrictAway [("grid_id", 1), ("date", 5), ("v", 2)] (overwriteKeys c3Acc c3Df))
        ∈ (overwriteJoin c3Acc c3Df).rows
    ∧ rowGet ([("grid_id", (1 : Val)), ("date", 5)] ++
        restrictAway [("grid_id", 1), ("date", 5), ("v", 2)] (overwriteKeys c3Acc c3Df)) "v"
      = rowGet [("grid_id", 1), ("date", 5), ("v", 2)] "v" :=
  ⟨(c3_shared_column_conflict c3Acc c3Df (by decide)).1.1
  , (c3_shared_column_conflict c3Acc c3Df (by decide)).2.1
  , ((c3_shared_column_conflict c3Acc c3Df (by decide)).2.2 "v" (by decide)
      [("grid_id", 1), ("date", 5)] (by decide)
      [("grid_id", 1), ("date", 5), ("v", 2)] (by decide) (by decide)).1
  , ((c3_shared_column_conflict c3Acc c3Df (by decide)).2.2 "v" (by decide)
      [("grid_id", 1), ("date", 5)] (by decide)
      [("grid_id", 1), ("date", 5), ("v", 2)] (by decide) (by decide)).2⟩

/-! ## Idempotence of the Dataset Merge Engine (C2) -/

theorem storageRead_write (st : Storage) (p : PartitionPath) (f : Frame)
    (q : PartitionPath) :
    storageRead (storageWrite st p f) q =
      if q = p then some f else storageRead st q := by
  simp only [storageRead, storageWrite, List.lookup]
  by_cases h : q = p
  · simp [h]
  · simp [h, beq_eq_false_iff_ne.mpr h]

theorem processMonth_ok_shape {cfg : RecombinerCfg} {st st2 : Storage}
    {m : String} (h : processMonth cfg st m = .ok st2) :
    ∃ f, st2 = storageWrite st (cfg.outStage, m) f := by
  unfold processMonth at h
  cases hr : readDfsToMerge st m cfg.stages with
  | error e => rw [hr] at h; cases h
  | ok dfs =>
    simp only [hr] at h
    cases hc : combineAll cfg.overwriteColumns dfs with
    | error e =>
      simp only [hc] at h
      exact Except.noConfusion h
    | ok combined =>
      simp only [hc, Except.ok.injEq] at h
      exact ⟨combined, h.symm⟩

theorem processAllMonths_read_untouched {cfg : RecombinerCfg}
    {sel : List String} {st st1 : Storage}
    (h : processAllMonths cfg st sel = .ok st1) (q : PartitionPath)
    (hq : q.1 ≠ cfg.outStage ∨ q.2 ∉ sel) :
    storageRead st1 q = storageRead st q := by
  induction sel generalizing st with
  | nil =>
    unfold processAllMonths at h
    cases h
    rfl
  | cons m ms ih =>
    unfold processAllMonths at h
    cases hp : processMonth cfg st m with
    | error e => rw [hp] at h; cases h
    | ok stW =>
      rw [hp] at h
      obtain ⟨f, rfl⟩ := processMonth_ok_shape hp
      have hqm : q ≠ (cfg.outStage, m) := by
        rcases hq with hq | hq
        · intro hcon; rw [hcon] at hq; exact hq rfl
        · intro hcon
          rw [hcon] at hq
          exact hq (List.mem_cons_self _ _)
      have hq2 : q.1 ≠ cfg.outStage ∨ q.2 ∉ ms := by
        rcases hq with hq | hq
        · exact Or.inl hq
        · exact Or.inr fun hc => hq (List.mem_cons_of_mem _ hc)
      rw [ih h hq2, storageRead_write, if_neg hqm]

theorem processAllMonths_written {cfg : RecombinerCfg}
    {sel : List String} {st st1 : Storage}
    (h : processAllMonths cfg st sel = .ok st1) :
    ∀ m ∈ sel, (storageRead st1 (cfg.outStage, m)).isSome = true := by
  induction sel generalizing st with
  | nil => intro m hm; cases hm
  | cons m0 ms ih =>
    intro m hm
    unfold processAllMonths at h
    cases hp : processMonth cfg st m0 with
    | error e => rw [hp] at h; cases h
    | ok stW =>
      rw [hp] at h
      obtain ⟨f, rfl⟩ := processMonth_ok_shape hp
      by_cases hmem : m ∈ ms
      · exact ih h m hmem
      · have hmm0 : m = m0 := by
          rcases List.mem_cons.mp hm with h1 | h1
          · exact h1
          · exact absurd h1 hmem
        subst hmm0
        rw [processAllMonths_read_untouched h (cfg.outStage, m) (Or.inr hmem),
          storageRead_write, if_pos rfl]
        rfl

theorem collectExpectedColumns_congr {st st2 : Storage} {m : String}
    {stages : List String}
    (hread : ∀ s ∈ stages, storageRead st2 (s, m) = storageRead st (s, m)) :
    collectExpectedColumns st2 m stages = collectExpectedColumns st m stages := by
  induction stages with
  | nil => rfl
  | cons s rest ih =>
    unfold collectExpectedColumns readMetadata
    rw [hread s (List.mem_cons_self _ _),
      ih fun q hq => hread q (List.mem_cons_of_mem _ hq)]

theorem validateCombined_congr {st st2 : Storage} {stages : List String}
    {outStage m : String}
    (hread : ∀ s ∈ stages, storageRead st2 (s, m) = storageRead st (s, m))
    (hout : storageRead st2 (outStage, m) = storageRead st (outStage, m)) :
    validateCombined st2 stages outStage m = validateCombined st stages outStage m := by
  unfold validateCombined
  rw [collectExpectedColumns_congr hread]
  cases collectExpectedColumns st m stages with
  | error e => rfl
  | ok expCols =>
    cases stages with
    | nil => rfl
    | cons s rest =>
      unfold readMetadata
      dsimp only
      rw [hread s (List.mem_cons_self _ _), hout]

theorem needsRecombining_congr {st st2 : Storage} {stages : List String}
    {outStage m : String}
    (hread : ∀ s ∈ stages, storageRead st2 (s, m) = storageRead st (s, m))
    (hout : storageRead st2 (outStage, m) = storageRead st (outStage, m)) :
    needsRecombining st2 stages outStage m = needsRecombining st stages outStage m := by
  unfold needsRecombining doesDatasetExist
  rw [hout, validateCombined_congr hread hout]

theorem checkMonths_ok_mem {st : Storage} {stages : List String}
    {outStage : String} {ms : List String} {pairs : List (String × Bool)}
    (h : checkMonths st stages outStage ms = .ok pairs) :
    ∀ p ∈ pairs, needsRecombining st stages outStage p.1 = .ok p.2 := by
  induction ms generalizing pairs with
  | nil =>
    unfold checkMonths at h
    cases h
    intro p hp
    cases hp
  | cons m rest ih =>
    unfold checkMonths at h
    cases hn : needsRecombining st stages outStage m with
    | error e => rw [hn] at h; cases h
    | ok b =>
      rw [hn] at h
      cases hrest : checkMonths st stages outStage rest with
      | error e => rw [hrest] at h; cases h
      | ok rp =>
        rw [hrest] at h
        cases h
        intro p hp
        rcases List.mem_cons.mp hp with hp | hp
        · subst hp; exact hn
        · exact ih hrest p hp

theorem checkMonths_ok_covers {st : Storage} {stages : List String}
    {outStage : String} {ms : List String} {pairs : List (String × Bool)}
    (h : checkMonths st stages outStage ms = .ok pairs) :
    ∀ m ∈ ms, ∃ b, needsRecombining st stages outStage m = .ok b ∧ (m, b) ∈ pairs := by
  induction ms generalizing pairs with
  | nil => intro m hm; cases hm
  | cons m0 rest ih =>
    intro m hm
    unfold checkMonths at h
    cases hn : needsRecombining st stages outStage m0 with
    | error e => rw [hn] at h; cases h
    | ok b =>
      rw [hn] at h
      cases hrest : checkMonths st stages outStage rest with
      | error e => rw [hrest] at h; cases h
      | ok rp =>
        rw [hrest] at h
        cases h
        rcases List.mem_cons.mp hm with h1 | h1
        · subst h1
          exact ⟨b, hn, List.mem_cons_self _ _⟩
        · obtain ⟨b2, hb2, hmem⟩ := ih hrest m h1
          exact ⟨b2, hb2, List.mem_cons_of_mem _ hmem⟩

theorem needsRecombining_false_elim {st : Storage} {stages : List String}
    {outStage m : String}
    (h : needsRecombining st stages outStage m = .ok false) :
    doesDatasetExist st (outStage, m) = true ∧
      validateCombined st stages outStage m = .ok () := by
  unfold needsRecombining at h
  by_cases he : doesDatasetExist st (outStage, m) = true
  · rw [he] at h
    simp only [Bool.not_true, Bool.false_eq_true, if_false] at h
    refine ⟨he, ?_⟩
    cases hv : validateCombined st stages outStage m with
    | ok u => cases u; rfl
    | error e =>
      rw [hv] at h
      cases e with
      | valueError e2 => cases h
      | storageMissing s mm => cases h
      | indexOutOfRange => cases h
      | stopIteration => cases h
  · rw [Bool.of_not_eq_true he] at h
    simp only [Bool.not_false, if_true] at h
    cases h

theorem validateAllMonths_ok_elim {st : Storage} {stages : List String}
    {outStage : String} {sel : List String}
    (h : validateAllMonths st stages outStage sel = .ok ()) :
    ∀ m ∈ sel, validateCombined st stages outStage m = .ok () := by
  induction sel with
  | nil => intro m hm; cases hm
  | cons m0 rest ih =>
    intro m hm
    unfold validateAllMonths at h
    cases hv : validateCombined st stages outStage m0 with
    | error e => rw [hv] at h; cases h
    | ok u =>
      cases u
      rw [hv] at h
      rcases List.mem_cons.mp hm with h1 | h1
      · subst h1; exact hv
      · exact ih h m h1

theorem checkMonths_all_false {st : Storage} {stages : List String}
    {outStage : String} {ms : List String}
    (h : ∀ m ∈ ms, needsRecombining st stages outStage m = .ok false) :
    checkMonths st stages outStage ms = .ok (ms.map (fun m => (m, false))) := by
  induction ms with
  | nil => rfl
  | cons m rest ih =>
    unfold checkMonths
    rw [h m (List.mem_cons_self _ _),
      ih fun q hq => h q (List.mem_cons_of_mem _ hq)]
    rfl

theorem filter_map_false {ms : List String} :
    ((ms.map (fun m => (m, false))).filter (fun p => p.2)).map (fun p => p.1) = [] := by
  induction ms with
  | nil => rfl
  | cons m rest ih =>
    simp only [List.map_cons, List.filter_cons, Bool.false_eq_true, if_false]
    exact ih

/-- C2: after a successful `recombine` run (with `force` disabled and the
output stage distinct from every input stage), a second run on the
unchanged resulting storage selects no month during the skip check — every
month's output partition exists and re-validates — and therefore performs
zero additional writes, returning the storage unchanged with an empty list
of written months. -/
theorem c2_recombine_idempotent (cfg : RecombinerCfg) (st st1 : Storage)
    (written : List String)
    (hforce : cfg.forceRecombine = false)
    (hout : ∀ s ∈ cfg.stages, s ≠ cfg.outStage)
    (h1 : recombine cfg st = .ok (st1, written)) :
    (∀ m ∈ cfg.months, needsRecombining st1 cfg.stages cfg.outStage m = .ok false)
    ∧ recombine cfg st1 = .ok (st1, []) := by
  unfold recombine filterMonthsToUpdate at h1
  rw [hforce] at h1
  simp only [Bool.false_eq_true, if_false] at h1
  cases hcheck : checkMonths st cfg.stages cfg.outStage cfg.months with
  | error e =>
    rw [hcheck] at h1
    exact Except.noConfusion h1
  | ok pairs =>
    simp only [hcheck] at h1
    cases hproc : processAllMonths cfg st
        ((pairs.filter (fun p => p.2)).map (fun p => p.1)) with
    | error e =>
      rw [hproc] at h1
      exact Except.noConfusion h1
    | ok stP =>
      simp only [hproc] at h1
      cases hval : validateAllMonths stP cfg.stages cfg.outStage
          ((pairs.filter (fun p => p.2)).map (fun p => p.1)) with
      | error e =>
        rw [hval] at h1
        exact Except.noConfusion h1
      | ok u =>
        cases u
        simp only [hval, Except.ok.injEq, Prod.mk.injEq] at h1
        obtain ⟨hst1, hwr⟩ := h1
        subst hst1
        have hA : ∀ m ∈ cfg.months,
            needsRecombining stP cfg.stages cfg.outStage m = .ok false := by
          intro m hm
          obtain ⟨b, hb, hbmem⟩ := checkMonths_ok_covers hcheck m hm
          by_cases hmsel : m ∈ (pairs.filter (fun p => p.2)).map (fun p => p.1)
          · have hex := processAllMonths_written hproc m hmsel
            have hv := validateAllMonths_ok_elim hval m hmsel
            unfold needsRecombining
            rw [show doesDatasetExist stP (cfg.outStage, m) = true from hex]
            simp only [Bool.not_true, Bool.false_eq_true, if_false]
            rw [hv]
          · have hbf : b = false := by
              cases b with
              | false => rfl
              | true =>
                refine absurd ?_ hmsel
                exact List.mem_map.mpr
                  ⟨(m, true), List.mem_filter.mpr ⟨hbmem, rfl⟩, rfl⟩
            subst hbf
            have hreads : ∀ s ∈ cfg.stages,
                storageRead stP (s, m) = storageRead st (s, m) := by
              intro s hs
              exact processAllMonths_read_untouched hproc (s, m)
                (Or.inl (hout s hs))
            have houtread : storageRead stP (cfg.outStage, m) =
                storageRead st (cfg.outStage, m) :=
              processAllMonths_read_untouched hproc (cfg.outStage, m)
                (Or.inr hmsel)
            rw [needsRecombining_congr hreads houtread]
            exact hb
        refine ⟨hA, ?_⟩
        unfold recombine filterMonthsToUpdate
        rw [hforce]
        simp only [Bool.false_eq_true, if_false]
        rw [checkMonths_all_false hA]
        dsimp only
        rw [filter_map_false]
        rfl

/-- Stage frame used by the `c2` witness. -/
def c2Frame : Frame :=
  { cols := ["grid_id", "date", "v"]
    rows := [[("grid_id", 1), ("date", 1), ("v", 10)]] }

/-- Recombiner configuration used by the `c2` witness: one stage, one
month, no force, no overwrite. -/
def c2Cfg : RecombinerCfg :=
  { stages := ["stage_a"]
    outStage := "combined"
    months := ["2023-01"]
    forceRecombine := false
    overwriteColumns := false }

/-- Initial storage of the `c2` witness: only the input stage partition. -/
def c2St : Storage := [(("stage_a", "2023-01"), c2Frame)]

/-- Storage after the first `recombine` run of the `c2` witness. -/
def c2St1 : Storage := (("combined", "2023-01"), c2Frame) :: c2St

/-- Witness for `c2_recombine_idempotent`: a concrete first run writes
one month, and the theorem yields that the second run writes nothing. -/
theorem c2_recombine_idempotent_witness :
    (∀ m ∈ c2Cfg.months,
      needsRecombining c2St1 c2Cfg.stages c2Cfg.outStage m = .ok false)
    ∧ recombine c2Cfg c2St1 = .ok (c2St1, []) :=
  c2_recombine_idempotent c2Cfg c2St c2St1 ["2023-01"] (by decide)
    (by decide) (by decide)

/-! ## Spatial Gap-Fill Orchestrator

`pm25ml/imputation/spatial/spatial_imputation_manager.py`. The injected
spatial interpolator is an opaque function on frames; the value-column
regex selector is an opaque column predicate; months are processed by the
pool independently, so the per-month body is embedded on its own. -/

/-- The data of a `SpatialImputationValidationError` raised by
`SpatialImputationManager._validate_result`. -/
inductive SpatialValData
  | rowMismatch (expected actual : Nat)
  | missingColumns (missing : List String)
deriving DecidableEq

/-- Errors of the Spatial Gap-Fill Orchestrator: `validation` is the
dedicated `SpatialImputationValidationError` class (the only class
`_needs_upload` catches); `valueError` is the plain `ValueError` the
per-month imputation body raises on a length mismatch; `storageMissing`
is the storage gateway's error for reading an absent partition. -/
inductive SpatialErr
  | validation (v : SpatialValData)
  | valueError (expected actual : Nat)
  | storageMissing (stage month : String)
deriving DecidableEq

/-- The `YYYY-MM` id of a month (Arrow `month.format("YYYY-MM")`). -/
def monthId (m : YM) : String := monthFormat m

/-- Embeds `SpatialImputationManager._validate_result`: the output
partition's metadata must have `days-in-month × grid-size` rows, and all
expected columns minus the transient `month` column must be present;
violations raise `SpatialImputationValidationError`. -/
def spatialValidateResult (st : Storage) (indiaGridCells : Nat)
    (outStage : String) (expectedColumns : List String) (m : YM) :
    Except SpatialErr Unit :=
  let expectedRows := daysInMonth m * indiaGridCells
  match storageRead st (outStage, monthId m) with
  | none => .error (.storageMissing outStage (monthId m))
  | some f =>
    if f.rows.length ≠ expectedRows then
      .error (.validation (.rowMismatch expectedRows f.rows.length))
    else
      let missing := expectedColumns.filter
        (fun c => !(f.cols.contains c) && !(c == "month"))
      if missing.isEmpty then .ok ()
      else .error (.validation (.missingColumns missing))

/-- Embeds `SpatialImputationManager._needs_upload`: upload is needed when
the month's output partition does not exist or re-validation raises a
`SpatialImputationValidationError` (caught locally); other exceptions
propagate. -/
def needsUpload (st : Storage) (indiaGridCells : Nat) (outStage : String)
    (expectedColumns : List String) (m : YM) : Except SpatialErr Bool :=
  if !(doesDatasetExist st (outStage, monthId m)) then .ok true
  else
    match spatialValidateResult st indiaGridCells outStage expectedColumns m with
    | .ok () => .ok false
    | .error (.validation _) => .ok true
    | .error e => .error e

/-- Embeds the `select("grid_id", "date", pl.col(column_regex))` applied
to the interpolator's output: keep the identifier columns and the columns
matched by the value-column selector; the row count is untouched. -/
def selectFrame (colSel : String → Bool) (f : Frame) : Frame :=
  { cols := "grid_id" :: "date" ::
      f.cols.filter (fun c => colSel c && !(idColumns.contains c))
    rows := f.rows.map
      (fun r => r.filter (fun kv => idColumns.contains kv.1 || colSel kv.1)) }

/-- Embeds the per-month body `process_month` of
`SpatialImputationManager._impute_all_months`: record the month frame's
length, run the interpolator, restrict to the selected columns, and raise
a `ValueError` when the length changed — before any write; otherwise
write the imputed frame to the month's output partition. -/
def spatialProcessMonth (st : Storage) (outStage : String)
    (imputeFn : Frame → Frame) (colSel : String → Bool)
    (monthDf : Frame) (m : YM) : Except SpatialErr Storage :=
  let expectedLength := monthDf.rows.length
  let imputedMonth := selectFrame colSel (imputeFn monthDf)
  let actualLength := imputedMonth.rows.length
  if actualLength ≠ expectedLength then
    .error (.valueError expectedLength actualLength)
  else
    .ok (storageWrite st (outStage, monthId m) imputedMonth)

/-- C5 as amended: a row-count mismatch between the interpolator's
selected output and the month's input makes the per-month body fail with
a plain `ValueError` (not a `SpatialImputationValidationError`) before
any write; with equal counts the imputed rows are written to the month's
output partition. -/
theorem c5_row_preservation (st : Storage) (outStage : String)
    (imputeFn : Frame → Frame) (colSel : String → Bool) (monthDf : Frame)
    (m : YM) :
    ((selectFrame colSel (imputeFn monthDf)).rows.length ≠ monthDf.rows.length →
      spatialProcessMonth st outStage imputeFn colSel monthDf m =
        .error (.valueError monthDf.rows.length
          (selectFrame colSel (imputeFn monthDf)).rows.length))
    ∧ ((selectFrame colSel (imputeFn monthDf)).rows.length = monthDf.rows.length →
      spatialProcessMonth st outStage imputeFn colSel monthDf m =
        .ok (storageWrite st (outStage, monthId m)
          (selectFrame colSel (imputeFn monthDf)))) := by
  constructor
  · intro hne
    unfold spatialProcessMonth
    rw [if_pos hne]
  · intro heq
    unfold spatialProcessMonth
    rw [if_neg (by rw [heq]; exact fun hc => hc rfl)]

/-- Input month frame of the `c5` scenarios: two rows. -/
def c5Df : Frame :=
  { cols := ["month", "grid_id", "date", "x"]
    rows :=
      [ [("grid_id", 1), ("date", 1), ("x", 3)]
      , [("grid_id", 2), ("date", 1), ("x", 4)] ] }

/-- A row-dropping interpolator for the `c5` counterexample. -/
def c5BadImputer : Frame → Frame :=
  fun f => { cols := f.cols, rows := f.rows.take 1 }

/-- The value-column selector of the `c5` scenarios. -/
def c5Sel : String → Bool := fun c => c == "x"

/-- C5 counterexample: when the interpolator drops a row, the month's
body raises a plain `ValueError`, not the `SpatialImputationValidationError`
the claim names. -/
theorem c5_row_preservation_counterexample :
    spatialProcessMonth [] "imputed" c5BadImputer c5Sel c5Df ⟨2023, 1⟩ =
      .error (.valueError 2 1)
    ∧ ¬ ∃ v, spatialProcessMonth [] "imputed" c5BadImputer c5Sel c5Df ⟨2023, 1⟩ =
        .error (.validation v) := by
  have hrun : spatialProcessMonth [] "imputed" c5BadImputer c5Sel c5Df ⟨2023, 1⟩ =
      .error (.valueError 2 1) := by decide
  refine ⟨hrun, ?_⟩
  rintro ⟨v, hv⟩
  rw [hrun] at hv
  simp at hv

/-- An identity-like interpolator for the `c5` witness. -/
def c5GoodImputer : Frame → Frame := fun f => f

/-- Witness for `c5_row_preservation` at concrete inputs: the
row-dropping interpolator errors, the row-preserving one writes. -/
theorem c5_row_preservation_witness :
    spatialProcessMonth [] "imputed" c5BadImputer c5Sel c5Df ⟨2023, 1⟩ =
      .error (.valueError c5Df.rows.length
        (selectFrame c5Sel (c5BadImputer c5Df)).rows.length)
    ∧ spatialProcessMonth [] "imputed" c5GoodImputer c5Sel c5Df ⟨2023, 1⟩ =
        .ok (storageWrite [] ("imputed", monthId ⟨2023, 1⟩)
          (selectFrame c5Sel (c5GoodImputer c5Df))) :=
  ⟨(c5_row_preservation [] "imputed" c5BadImputer c5Sel c5Df ⟨2023, 1⟩).1
      (by decide)
  , (c5_row_preservation [] "imputed" c5GoodImputer c5Sel c5Df ⟨2023, 1⟩).2
      (by decide)⟩

/-- C9: the expected row count of a month is the country's fixed grid
cell count times the number of days in the month — `expected_rows`
returns exactly this product, and the spatial post-write validation
raises a `SpatialImputationValidationError` whenever the written
partition's metadata row count differs from it. -/
theorem c9_expected_rows (indiaGridCells : Nat) (p : CombinePlan)
    (st : Storage) (outStage : String) (expectedColumns : List String)
    (f : Frame)
    (hread : storageRead st (outStage, monthId p.month) = some f)
    (hmm : f.rows.length ≠ daysInMonth p.month * indiaGridCells) :
    CombinePlan.expected_rows indiaGridCells p =
      indiaGridCells * daysInMonth p.month
    ∧ spatialValidateResult st indiaGridCells outStage expectedColumns p.month =
        .error (.validation (.rowMismatch (daysInMonth p.month * indiaGridCells)
          f.rows.length)) := by
  refine ⟨rfl, ?_⟩
  unfold spatialValidateResult
  rw [hread]
  dsimp only
  rw [if_pos hmm]

/-- Witness for `c9_expected_rows`: January 2023 has 31 days, a grid of
2 cells gives 62 expected rows, and a 5-row written partition fails
validation. -/
theorem c9_expected_rows_witness :
    CombinePlan.expected_rows 2 ⟨⟨2023, 1⟩, [], []⟩ = 2 * daysInMonth ⟨2023, 1⟩
    ∧ spatialValidateResult
        [(("spatially_imputed", "2023-01"), ⟨["grid_id"], List.replicate 5 []⟩)]
        2 "spatially_imputed" [] ⟨2023, 1⟩ =
      .error (.validation (.rowMismatch (daysInMonth ⟨2023, 1⟩ * 2) 5)) :=
  c9_expected_rows 2 ⟨⟨2023, 1⟩, [], []⟩
    [(("spatially_imputed", "2023-01"), ⟨["grid_id"], List.replicate 5 []⟩)]
    "spatially_imputed" [] ⟨["grid_id"], List.replicate 5 []⟩
    (by decide) (by decide)

/-- C7: in both engines, a validation failure during the idempotent
skip check of an existing output partition (a `ValueError` in the Merge
Engine, a `SpatialImputationValidationError` in the Spatial engine) is
caught locally and turns into "needs recomputation" (`.ok true`) rather
than propagating to the caller. -/
theorem c7_skip_check_catches_validation :
    (∀ (st : Storage) (stages : List String) (outStage m : String)
        (e : MergeValueError),
      doesDatasetExist st (outStage, m) = true →
      validateCombined st stages outStage m = .error (.valueError e) →
      needsRecombining st stages outStage m = .ok true)
    ∧ (∀ (st : Storage) (indiaGridCells : Nat) (outStage : String)
        (expectedColumns : List String) (m : YM) (v : SpatialValData),
      doesDatasetExist st (outStage, monthId m) = true →
      spatialValidateResult st indiaGridCells outStage expectedColumns m =
        .error (.validation v) →
      needsUpload st indiaGridCells outStage expectedColumns m = .ok true) := by
  constructor
  · intro st stages outStage m e hex hval
    unfold needsRecombining
    rw [hex]
    simp only [Bool.not_true, Bool.false_eq_true, if_false]
    rw [hval]
  · intro st indiaGridCells outStage expectedColumns m v hex hval
    unfold needsUpload
    rw [hex]
    simp only [Bool.not_true, Bool.false_eq_true, if_false]
    rw [hval]

/-- Storage for the merge half of the `c7` witness: the output partition
exists but has the wrong row count. -/
def c7MergeSt : Storage :=
  [ (("combined", "2023-01"), ⟨["grid_id", "date", "v"], []⟩)
  , (("stage_a", "2023-01"), c2Frame) ]

/-- Storage for the spatial half of the `c7` witness: the output
partition exists but has 5 rows instead of 31. -/
def c7SpatialSt : Storage :=
  [(("spatially_imputed", "2023-01"), ⟨["grid_id"], List.replicate 5 []⟩)]

/-- Witness for `c7_skip_check_catches_validation` on concrete storages
whose existing output partitions fail re-validation. -/
theorem c7_skip_check_catches_validation_witness :
    needsRecombining c7MergeSt ["stage_a"] "combined" "2023-01" = .ok true
    ∧ needsUpload c7SpatialSt 1 "spatially_imputed" [] ⟨2023, 1⟩ = .ok true :=
  ⟨c7_skip_check_catches_validation.1 c7MergeSt ["stage_a"] "combined"
      "2023-01" (.rowMismatch 1 0) (by decide) (by decide)
  , c7_skip_check_catches_validation.2 c7SpatialSt 1 "spatially_imputed" []
      ⟨2023, 1⟩ (.rowMismatch 31 5) (by decide) (by decide)⟩

/-! ## Regression Imputation Engine

`pm25ml/imputation/from_model/regression_model_predictor.py`. Floats are
embedded as `ℚ`; the trained model's `predict` is an opaque function from
the month's rows to predicted values; `month.format` ids are opaque month
strings. The `_which_df` marker column takes the literal values
`"current"`/`"previous"`, embedded as a two-value tag. `predict` is
embedded as a trace of its storage effects (reads, the length-mismatch
warning, writes), so that "before touching any data" and "zero warnings"
are expressible. -/

/-- An input row of a month's combined partition: identifier columns and
the raw target column (the predictor feature columns do not influence the
embedded logic — the opaque predictor consumes the rows wholesale). -/
structure InRow where
  grid_id : Nat
  date : Nat
  target : Option ℚ
deriving DecidableEq

/-- A result row: the input columns plus the `{target}__*` columns
produced by `_add_imputed_details_to_df` (`none` for the stats columns
when `include_stats` is off, and for a not-yet-computed rolling mean). -/
structure OutRow where
  grid_id : Nat
  date : Nat
  target : Option ℚ
  predicted : ℚ
  imputed_flag : Option Nat
  imputed : Option ℚ
  score : Option ℚ
  share_imputed : Option ℚ
  imputed_r7d : Option ℚ
deriving DecidableEq

/-- Mean of a list of rationals (`numpy`/polars `.mean()`). -/
def qmean (l : List ℚ) : ℚ := l.sum / l.length

/-- Embeds `with_columns(pl.Series(predicted_col_name, predicted_data))`.
Polars raises a frame error when the series length differs from the
frame's; the theorems therefore hypothesize equal lengths. -/
def withPredicted (data : List InRow) (predicted : List ℚ) : List OutRow :=
  List.zipWith
    (fun (r : InRow) (p : ℚ) =>
      { grid_id := r.grid_id, date := r.date, target := r.target
        predicted := p, imputed_flag := none, imputed := none, score := none
        share_imputed := none, imputed_r7d := none })
    data predicted

/-- The `imputed_flag` expression: `1` where the raw target is null,
else `0`. -/
def flagOf (r : OutRow) : Nat := if r.target = none then 1 else 0

/-- The `share_imputed_across_all_grids` expression:
`is_imputed.mean().over("date")`. -/
def shareForDate (rows : List OutRow) (d : Nat) : ℚ :=
  qmean ((rows.filter (fun r => r.date == d)).map (fun r => (flagOf r : ℚ)))

/-- Embeds the two `with_columns` steps that attach `imputed_flag`,
`imputed`, `score` and `share_imputed_across_all_grids`. -/
def withFlagAndAggregates (avgCv : ℚ) (rows : List OutRow) : List OutRow :=
  let flagged := rows.map (fun r => { r with imputed_flag := some (flagOf r) })
  flagged.map (fun r =>
    { r with
      imputed := some (match r.target with
        | none => r.predicted
        | some t => t)
      score := some (match r.target with
        | none => r.predicted * avgCv
        | some t => t)
      share_imputed := some (shareForDate flagged r.date) })

/-- The `_which_df` marker: `"current"` or `"previous"`. -/
inductive WhichDf
  | current
  | previous
deriving DecidableEq

/-- Embeds `previous_result.drop(rolling_imputed_col_name)`. -/
def dropRolling (r : OutRow) : OutRow := { r with imputed_r7d := none }

/-- Embeds the `pl.concat` of the tagged current frame with the tagged
previous-month frame (current first, as in the source). -/
def concatWithPrevious (cur : List OutRow) (previous : Option (List OutRow)) :
    List (WhichDf × OutRow) :=
  match previous with
  | none => cur.map (fun r => (.current, r))
  | some prev =>
    cur.map (fun r => (.current, r)) ++
      prev.map (fun r => (.previous, dropRolling r))

/-- Stable insertion into a sorted list (ties keep the incoming element
first, matching polars' stable sort together with `sortBy`). -/
def insertBy {α : Type _} (le : α → α → Bool) (x : α) : List α → List α
  | [] => [x]
  | y :: ys => if le x y then x :: y :: ys else y :: insertBy le x ys

/-- Stable insertion sort: the embedding of polars `DataFrame.sort`. -/
def sortBy {α : Type _} (le : α → α → Bool) : List α → List α
  | [] => []
  | x :: xs => insertBy le x (sortBy le xs)

/-- The `sort(["grid_id", "date"])` comparison. -/
def rowLe (a b : WhichDf × OutRow) : Bool :=
  Nat.blt a.2.grid_id b.2.grid_id ||
    (Nat.beq a.2.grid_id b.2.grid_id && Nat.ble a.2.date b.2.date)

/-- The last `n` elements of a list (the positional trailing window). -/
def lastN {α : Type _} (n : Nat) (l : List α) : List α :=
  l.drop (l.length - n)

/-- Embeds `imputed.rolling_mean(window_size=7, min_samples=1).over("grid_id")`:
walk the sorted rows, and give each row the mean of the non-null `imputed`
values in the trailing 7-position window of its grid-cell partition
(null when the window holds no non-null sample). -/
def attachRolling (seen : List (WhichDf × OutRow)) :
    List (WhichDf × OutRow) → List (WhichDf × OutRow)
  | [] => []
  | tr :: rest =>
    let grp := ((seen ++ [tr]).filter
      (fun q => q.2.grid_id == tr.2.grid_id)).map (fun q => q.2.imputed)
    let vals := (lastN 7 grp).filterMap id
    let r2 := { tr.2 with
      imputed_r7d := if vals.isEmpty then none else some (qmean vals) }
    (tr.1, r2) :: attachRolling (seen ++ [tr]) rest

/-- Embeds `RegressionModelPredictor._add_imputed_details_to_df`: attach
the predictions; when `include_stats`, attach the flag/imputed/score/share
columns, concatenate with the previous month's result (its own rolling
column excluded), sort by grid cell then date, attach the 7-day trailing
rolling mean per grid cell, and keep only the current month's rows. -/
def addImputedDetails (avgCv : ℚ) (dataForMonth : List InRow)
    (predicted : List ℚ) (previousResult : Option (List OutRow))
    (includeStats : Bool) : List OutRow :=
  let withPred := withPredicted dataForMonth predicted
  if !includeStats then withPred
  else
    let withAgg := withFlagAndAggregates avgCv withPred
    let both := concatWithPrevious withAgg previousResult
    let sorted := sortBy rowLe both
    let rolled := attachRolling [] sorted
    (rolled.filter (fun q => q.1 == WhichDf.current)).map (fun q => q.2)

/-- A rendering of a score for interpolation into error messages. (Python
formats `{score:.2f}`; only the fixed message text around it matters for
the claims.) -/
def ratStr (q : ℚ) : String := toString q.num ++ "/" ++ toString q.den

/-- The "too low" quality-gate message of `_check_model_quality`. -/
def qualityMsgLow (name s : String) : String :=
  "Average CV R2 score for the " ++ name ++ " model is too low: " ++ s ++ "."

/-- The "unusually high" quality-gate message of `_check_model_quality`. -/
def qualityMsgHigh (name s : String) : String :=
  "Average CV R2 score for the " ++ name ++ " model is unusually high: " ++
    s ++ "."

/-- The parts of a `ModelReference` consumed by the predictor. -/
structure ModelReference where
  model_name : String
  min_r2_score : ℚ
  max_r2_score : ℚ

/-- Embeds `RegressionModelPredictor._check_model_quality`: `ValueError`
below the minimum or above the maximum acceptable mean CV score. -/
def checkModelQuality (ref : ModelReference) (avg : ℚ) : Except String Unit :=
  if avg < ref.min_r2_score then
    .error (qualityMsgLow ref.model_name (ratStr avg))
  else if avg > ref.max_r2_score then
    .error (qualityMsgHigh ref.model_name (ratStr avg))
  else
    .ok ()

/-- An observable storage effect of `predict`: a month's read, the
length-mismatch warning, or a month's write (of the id plus `{target}__*`
columns, sorted by date then grid id). -/
inductive PredEffect
  | readMonth (m : String)
  | lengthWarning (m : String)
  | writeMonth (m : String) (rows : List OutRow)
deriving DecidableEq

/-- The collaborators of `predict`: the configured months in order, the
per-month input partitions, and the trained model's `predict`. -/
structure PredictEnv where
  months : List String
  inputFrames : String → List InRow
  predictor : List InRow → List ℚ

/-- The `sort(["date", "grid_id"])` applied before each write. -/
def writeSortLe (a b : OutRow) : Bool :=
  Nat.blt a.date b.date || (Nat.beq a.date b.date && Nat.ble a.grid_id b.grid_id)

/-- The strictly-ordered month loop of `predict`, carrying the previous
month's full result, emitting its effects in order. -/
def processMonthsTrace (avgCv : ℚ) (env : PredictEnv) (includeStats : Bool) :
    List String → Option (List OutRow) → List PredEffect
  | [], _ => []
  | m :: ms, previousResult =>
    let dataForMonth := env.inputFrames m
    let predictedData := env.predictor dataForMonth
    let resultDf := addImputedDetails avgCv dataForMonth predictedData
      previousResult includeStats
    let warn := if dataForMonth.length ≠ resultDf.length then
      [PredEffect.lengthWarning m] else []
    (PredEffect.readMonth m :: warn)
      ++ [PredEffect.writeMonth m (sortBy writeSortLe resultDf)]
      ++ processMonthsTrace avgCv env includeStats ms (some resultDf)

/-- Embeds `RegressionModelPredictor.predict` as its effect trace plus the
raised quality-gate error, if any: the mean CV score is computed and gated
before any month is read. -/
def predictTrace (ref : ModelReference) (cvScores : List ℚ) (env : PredictEnv)
    (includeStats : Bool) : List PredEffect × Option String :=
  match checkModelQuality ref (qmean cvScores) with
  | .error msg => ([], some msg)
  | .ok () =>
    (processMonthsTrace (qmean cvScores) env includeStats env.months none, none)

/-- Substring containment, as Python `"too low" in str(excinfo.value)`. -/
def containsSub (msg sub : String) : Prop :=
  ∃ p t : String, msg = p ++ (sub ++ t)

theorem qualityMsgLow_contains (name s : String) :
    containsSub (qualityMsgLow name s) "too low" := by
  refine ⟨"Average CV R2 score for the " ++ name ++ " model is ",
    ": " ++ s ++ ".", ?_⟩
  unfold qualityMsgLow
  have h : (" model is too low: " : String) =
      " model is " ++ ("too low" ++ ": ") := by decide
  rw [h]
  repeat rw [String.append_assoc]

theorem qualityMsgHigh_contains (name s : String) :
    containsSub (qualityMsgHigh name s) "unusually high" := by
  refine ⟨"Average CV R2 score for the " ++ name ++ " model is ",
    ": " ++ s ++ ".", ?_⟩
  unfold qualityMsgHigh
  have h : (" model is unusually high: " : String) =
      " model is " ++ ("unusually high" ++ ": ") := by decide
  rw [h]
  repeat rw [String.append_assoc]

/-- C6: `predict` computes the mean of the stored CV scores and gates on
it before any month is read (an empty effect trace on failure): below
`min_r2_score` it raises a `ValueError` whose message contains "too low",
above `max_r2_score` one containing "unusually high", and within the
bounds no quality-gate error is raised and the month loop's effects are
produced. -/
theorem c6_quality_gate (ref : ModelReference) (cvScores : List ℚ)
    (env : PredictEnv) (includeStats : Bool) :
    (qmean cvScores < ref.min_r2_score →
      predictTrace ref cvScores env includeStats =
        ([], some (qualityMsgLow ref.model_name (ratStr (qmean cvScores))))
      ∧ containsSub (qualityMsgLow ref.model_name (ratStr (qmean cvScores)))
          "too low")
    ∧ (ref.min_r2_score ≤ qmean cvScores → ref.max_r2_score < qmean cvScores →
      predictTrace ref cvScores env includeStats =
        ([], some (qualityMsgHigh ref.model_name (ratStr (qmean cvScores))))
      ∧ containsSub (qualityMsgHigh ref.model_name (ratStr (qmean cvScores)))
          "unusually high")
    ∧ (ref.min_r2_score ≤ qmean cvScores → qmean cvScores ≤ ref.max_r2_score →
      predictTrace ref cvScores env includeStats =
        (processMonthsTrace (qmean cvScores) env includeStats env.months none,
          none)) := by
  refine ⟨?_, ?_, ?_⟩
  · intro h
    refine ⟨?_, qualityMsgLow_contains _ _⟩
    unfold predictTrace checkModelQuality
    rw [if_pos h]
  · intro h1 h2
    refine ⟨?_, qualityMsgHigh_contains _ _⟩
    unfold predictTrace checkModelQuality
    rw [if_neg (not_lt.mpr h1), if_pos h2]
  · intro h1 h2
    unfold predictTrace checkModelQuality
    rw [if_neg (not_lt.mpr h1), if_neg (not_lt.mpr h2)]

/-- Model reference used by the `c6` witness: bounds `[0.7, 0.9]`. -/
def c6Ref : ModelReference :=
  { model_name := "aod", min_r2_score := 7/10, max_r2_score := 9/10 }

/-- Environment used by the `c6` witness (no months). -/
def c6Env : PredictEnv :=
  { months := [], inputFrames := fun _ => [], predictor := fun _ => [] }

/-- Witness for `c6_quality_gate` on concrete CV scores below, above and
within the bounds. -/
theorem c6_quality_gate_witness :
    (predictTrace c6Ref [1/2] c6Env true =
        ([], some (qualityMsgLow c6Ref.model_name (ratStr (qmean [1/2]))))
      ∧ containsSub (qualityMsgLow c6Ref.model_name (ratStr (qmean [1/2])))
          "too low")
    ∧ (predictTrace c6Ref [1] c6Env true =
        ([], some (qualityMsgHigh c6Ref.model_name (ratStr (qmean [1]))))
      ∧ containsSub (qualityMsgHigh c6Ref.model_name (ratStr (qmean [1])))
          "unusually high")
    ∧ predictTrace c6Ref [4/5] c6Env true =
        (processMonthsTrace (qmean [4/5]) c6Env true c6Env.months none, none) :=
  ⟨(c6_quality_gate c6Ref [1/2] c6Env true).1
      (by norm_num [qmean, c6Ref])
  , (c6_quality_gate c6Ref [1] c6Env true).2.1
      (by norm_num [qmean, c6Ref]) (by norm_num [qmean, c6Ref])
  , (c6_quality_gate c6Ref [4/5] c6Env true).2.2
      (by norm_num [qmean, c6Ref]) (by norm_num [qmean, c6Ref])⟩

/-! ## Row preservation in the Regression Imputation Engine (C10) -/

theorem insertBy_perm {α : Type _} (le : α → α → Bool) (x : α) (l : List α) :
    (insertBy le x l).Perm (x :: l) := by
  induction l with
  | nil => exact List.Perm.refl _
  | cons y ys ih =>
    unfold insertBy
    by_cases h : le x y = true
    · rw [if_pos h]
    · rw [if_neg h]
      exact ((ih.cons y).trans (List.Perm.swap x y ys))

theorem sortBy_perm {α : Type _} (le : α → α → Bool) (l : List α) :
    (sortBy le l).Perm l := by
  induction l with
  | nil => exact List.Perm.refl _
  | cons x xs ih =>
    exact (insertBy_perm le x (sortBy le xs)).trans (ih.cons x)

theorem attachRolling_map_fst (seen l : List (WhichDf × OutRow)) :
    (attachRolling seen l).map Prod.fst = l.map Prod.fst := by
  induction l generalizing seen with
  | nil => rfl
  | cons tr rest ih =>
    unfold attachRolling
    simp only [List.map_cons]
    rw [ih]

/-- The count of current-tagged rows survives the concat, sort and
rolling steps; filtering back therefore recovers exactly one row per
current-month input row. -/
theorem addImputedDetails_length (avgCv : ℚ) (dataForMonth : List InRow)
    (predicted : List ℚ) (previousResult : Option (List OutRow))
    (includeStats : Bool)
    (hlen : predicted.length = dataForMonth.length) :
    (addImputedDetails avgCv dataForMonth predicted previousResult
      includeStats).length = dataForMonth.length := by
  have hwp : (withPredicted dataForMonth predicted).length = dataForMonth.length := by
    simp [withPredicted, hlen]
  cases includeStats with
  | false =>
    unfold addImputedDetails
    simpa using hwp
  | true =>
    unfold addImputedDetails
    simp only [Bool.not_true, Bool.false_eq_true, if_false]
    set withAgg := withFlagAndAggregates avgCv (withPredicted dataForMonth predicted)
      with hwa
    have hagg : withAgg.length = dataForMonth.length := by
      rw [hwa]
      unfold withFlagAndAggregates
      simp [hwp]
    set p : WhichDf × OutRow → Bool := fun q => q.1 == WhichDf.current with hp
    have hcount : ∀ l : List (WhichDf × OutRow),
        (l.filter p).length = l.countP p := fun l =>
      (List.countP_eq_length_filter p l).symm
    have hroll : (attachRolling []
        (sortBy rowLe (concatWithPrevious withAgg previousResult))).countP p =
        (sortBy rowLe (concatWithPrevious withAgg previousResult)).countP p := by
      have hfst := attachRolling_map_fst []
        (sortBy rowLe (concatWithPrevious withAgg previousResult))
      have h1 : ∀ l : List (WhichDf × OutRow),
          l.countP p = (l.map Prod.fst).countP (fun a => a == WhichDf.current) := by
        intro l
        rw [List.countP_map]
        rfl
      rw [h1, h1, hfst]
    have hsort : (sortBy rowLe (concatWithPrevious withAgg previousResult)).countP p =
        (concatWithPrevious withAgg previousResult).countP p :=
      (sortBy_perm rowLe _).countP_eq p
    have hc1 : (p ∘ fun r => (WhichDf.current, r)) = fun _ => true := by
      funext r
      simp [hp, Function.comp]
    have hc2 : (p ∘ fun r => (WhichDf.previous, dropRolling r)) =
        fun _ => false := by
      funext r
      simp [hp, Function.comp]
    have hconcat : (concatWithPrevious withAgg previousResult).countP p =
        withAgg.length := by
      cases previousResult with
      | none =>
        unfold concatWithPrevious
        rw [List.countP_map, hc1, List.countP_true]
      | some prev =>
        unfold concatWithPrevious
        rw [List.countP_append, List.countP_map, List.countP_map, hc1, hc2,
          List.countP_true, List.countP_false]
        simp [Function.const]
    simp only [List.length_map]
    rw [hcount, hroll, hsort, hconcat, hagg]

/-- C10: with predictions of the input's length, the result of
`_add_imputed_details_to_df` has exactly one row per input row (with
`include_stats`, the concatenation with the previous month is filtered
back to current-month rows), so — given a predictor that preserves row
counts, as polars enforces when attaching the predicted series — the
length-mismatch warning branch of `predict` never fires. -/
theorem c10_result_length (avgCv : ℚ) (dataForMonth : List InRow)
    (predicted : List ℚ) (previousResult : Option (List OutRow))
    (includeStats : Bool) (env : PredictEnv) (months : List String)
    (prev0 : Option (List OutRow))
    (hlen : predicted.length = dataForMonth.length)
    (hpredictor : ∀ d, (env.predictor d).length = d.length) :
    (addImputedDetails avgCv dataForMonth predicted previousResult
      includeStats).length = dataForMonth.length
    ∧ ∀ e ∈ processMonthsTrace avgCv env includeStats months prev0,
        ∀ m, e ≠ .lengthWarning m := by
  refine ⟨addImputedDetails_length avgCv dataForMonth predicted previousResult
    includeStats hlen, ?_⟩
  induction months generalizing prev0 with
  | nil =>
    intro e he m
    cases he
  | cons m0 ms ih =>
    intro e he m
    unfold processMonthsTrace at he
    have heq : (env.inputFrames m0).length =
        (addImputedDetails avgCv (env.inputFrames m0)
          (env.predictor (env.inputFrames m0)) prev0 includeStats).length :=
      (addImputedDetails_length avgCv (env.inputFrames m0)
        (env.predictor (env.inputFrames m0)) prev0 includeStats
        (hpredictor (env.inputFrames m0))).symm
    dsimp only at he
    rw [if_neg (fun hc => hc heq)] at he
    simp only [List.nil_append, List.cons_append, List.mem_cons,
      List.mem_append, List.mem_singleton] at he
    rcases he with he | he | he
    · subst he
      exact fun hc => PredEffect.noConfusion hc
    · subst he
      exact fun hc => PredEffect.noConfusion hc
    · exact ih (some (addImputedDetails avgCv (env.inputFrames m0)
        (env.predictor (env.inputFrames m0)) prev0 includeStats)) e he m

/-- Concrete environment for the `c10` witness: one month, two rows, a
row-count-preserving predictor. -/
def c10Env : PredictEnv :=
  { months := ["2023-01"]
    inputFrames := fun _ => [⟨1, 1, none⟩, ⟨2, 1, some 3⟩]
    predictor := fun d => d.map (fun _ => 1) }

/-- Witness for `c10_result_length` at concrete inputs. -/
theorem c10_result_length_witness :
    (addImputedDetails (17/20) [⟨1, 1, none⟩, ⟨2, 1, some 3⟩] [1, 1] none
      true).length = ([⟨1, 1, none⟩, ⟨2, 1, some 3⟩] : List InRow).length
    ∧ ∀ e ∈ processMonthsTrace (17/20) c10Env true c10Env.months none,
        ∀ m, e ≠ .lengthWarning m :=
  c10_result_length (17/20) [⟨1, 1, none⟩, ⟨2, 1, some 3⟩] [1, 1] none true
    c10Env c10Env.months none (by decide)
    (fun d => by simp [c10Env])

/-! ## Cross-month rolling statistic (C4) -/

/-- Average CV score used in the `c4` scenario. -/
def c4AvgCv : ℚ := 17/20

/-- December (month A) input: grid 1 and grid 2 on three consecutive
dates, all targets null so the imputed series equals the predictions. -/
def c4DecData : List InRow :=
  [ ⟨1, 29, none⟩, ⟨2, 29, none⟩, ⟨1, 30, none⟩, ⟨2, 30, none⟩,
    ⟨1, 31, none⟩, ⟨2, 31, none⟩ ]

/-- December predictions: grid 1 gets the series `[1, 2, 1]` named by the
claim, grid 2 the series `[2, 1, 2]`. -/
def c4DecPredicted : List ℚ := [1, 2, 2, 1, 1, 2]

/-- January (month B) input: one row per grid on the following date. -/
def c4JanData : List InRow := [⟨1, 32, none⟩, ⟨2, 32, none⟩]

/-- January predictions: grid 1 gets `1.0`, grid 2 gets `2.0`. -/
def c4JanPredicted : List ℚ := [1, 2]

/-- Month A's result, carried forward into month B. -/
def c4DecResult : List OutRow :=
  addImputedDetails c4AvgCv c4DecData c4DecPredicted none true

/-- Month B's result, computed over the concatenation with month A's
carried-forward rows. -/
def c4JanResult : List OutRow :=
  addImputedDetails c4AvgCv c4JanData c4JanPredicted (some c4DecResult) true

theorem whichDf_beq_cc : (WhichDf.current == WhichDf.current) = true := rfl

theorem whichDf_beq_pc : (WhichDf.previous == WhichDf.current) = false := rfl

/-- C4 counterexample: with grid 1's December imputed series `[1, 2, 1]`
and January value `1`, the positional 7-window trailing mean of January's
first row is `5/4 = 1.25`, not the `1.0` the claim asserts (grid 2's
`7/4 = 1.75` is as claimed). -/
theorem c4_rolling_example_counterexample :
    c4JanResult.map (fun r => (r.grid_id, r.imputed_r7d)) ≠
      [(1, some 1), (2, some (7/4))] := by
  intro h
  have h2 : c4JanResult.map (fun r => (r.grid_id, r.imputed_r7d)) =
      [(1, some (5/4)), (2, some (7/4))] := by
    norm_num [c4JanResult, c4DecResult, c4AvgCv, c4DecData, c4DecPredicted,
      c4JanData, c4JanPredicted, addImputedDetails, withPredicted,
      withFlagAndAggregates, flagOf, shareForDate, qmean, concatWithPrevious,
      dropRolling, sortBy, insertBy, rowLe, attachRolling, lastN,
      whichDf_beq_cc, whichDf_beq_pc, List.zipWith_cons_cons,
      List.filterMap_cons, List.filter_cons, List.sum_cons, List.sum_nil]
  rw [h2] at h
  norm_num at h

/-- C4 as amended: the 7-day trailing rolling mean attached to month B's
rows is computed per grid cell (at least 1 non-null sample) over B's rows
concatenated with A's carried-forward result rows (A's own rolling column
excluded), sorted by grid cell then date and filtered back to B's rows:
the grid with December series `[1, 2, 1]` and January value `1` gets a
January first-row mean of `1.25`, and the grid with December tail
`[2, 1, 2]` and January value `2` gets `1.75`; only B's (January's) rows
are kept. -/
theorem c4_cross_month_rolling :
    c4JanResult.map (fun r => (r.grid_id, r.date, r.imputed_r7d)) =
      [(1, 32, some (5/4)), (2, 32, some (7/4))] := by
  norm_num [c4JanResult, c4DecResult, c4AvgCv, c4DecData, c4DecPredicted,
    c4JanData, c4JanPredicted, addImputedDetails, withPredicted,
    withFlagAndAggregates, flagOf, shareForDate, qmean, concatWithPrevious,
    dropRolling, sortBy, insertBy, rowLe, attachRolling, lastN,
    whichDf_beq_cc, whichDf_beq_pc, List.zipWith_cons_cons,
    List.filterMap_cons, List.filter_cons, List.sum_cons, List.sum_nil]

end Pm25ml
